import Mathlib

/-!
Tool-augmented chat assistant: the Reply loop and the tool registry.

A shallow embedding of `internal/chat/assistant/assistant.go` (`Reply` and `Title`) and
of `internal/chat/tools/` (the `Tool` interface, the registry, and the date, weather,
calculator and holiday tools).

The reasoning backend and the tools are external, effectful collaborators.  They are
embedded by explicit state passing over a world type `W`: a backend call and a tool's
`Execute` each take the current world and give back a result and the next world.
Every call that `Reply` makes to the backend or to a tool's `Execute` is recorded, in
order, in a trace, so that "how many calls" and "what was sent" are statements about
the value `Reply` computes.
-/

set_option autoImplicit false

namespace AcaiChat

/-! ## Data model -/

/-- Modelled from the spec: the package `internal/chat/model` is not among the sources;
the data model of the spec gives a message's role as `User | Assistant | Tool | System`. -/
inductive Role where
  | RoleUser
  | RoleAssistant
  | RoleTool
  | RoleSystem
  deriving DecidableEq, Repr

/-- Modelled from the spec: `model.Message`, of which the assistant reads `Role` and
`Content` only. -/
structure Message where
  Role : Role
  Content : String
  deriving DecidableEq, Repr

/-- Modelled from the spec: `model.Conversation`, of which the assistant reads the
ordered `Messages` only. -/
structure Conversation where
  Messages : List Message
  deriving DecidableEq, Repr

/-- A Go `error` value, identified with the text its `Error()` method returns. -/
structure GoError where
  msg : String
  deriving DecidableEq, Repr

/-- The Go call `errors.New(text)`. -/
def errorsNew (text : String) : GoError := ⟨text⟩

/-- A tool-call request of a backend response: `call.ID`, `call.Function.Name`,
`call.Function.Arguments`. -/
structure ToolCall where
  ID : String
  Name : String
  Arguments : String
  deriving DecidableEq, Repr

/-- The message of a response choice (`resp.Choices[i].Message`). -/
structure ChoiceMessage where
  Content : String
  ToolCalls : List ToolCall
  deriving DecidableEq, Repr

/-- One choice of a backend response. -/
structure Choice where
  Message : ChoiceMessage
  deriving DecidableEq, Repr

/-- A successful backend response. -/
structure Response where
  Choices : List Choice
  deriving DecidableEq, Repr

/-- A transcript entry in the backend's message shape
(`openai.ChatCompletionMessageParamUnion`). -/
inductive ChatMsg where
  | system (content : String)
  | user (content : String)
  | assistant (content : String) (toolCalls : List ToolCall)
  | tool (content : String) (toolCallID : String)
  deriving DecidableEq, Repr

/-- The constructor `openai.SystemMessage`. -/
def SystemMessage (content : String) : ChatMsg := ChatMsg.system content

/-- The constructor `openai.UserMessage`. -/
def UserMessage (content : String) : ChatMsg := ChatMsg.user content

/-- The constructor `openai.AssistantMessage`: plain content, no tool calls. -/
def AssistantMessage (content : String) : ChatMsg := ChatMsg.assistant content []

/-- The constructor `openai.ToolMessage(content, toolCallID)`. -/
def ToolMessage (content : String) (toolCallID : String) : ChatMsg :=
  ChatMsg.tool content toolCallID

/-- The method `message.ToParam()`: the assistant's own message, tool calls included,
in the shape in which it is sent back. -/
def ChoiceMessage.ToParam (m : ChoiceMessage) : ChatMsg :=
  ChatMsg.assistant m.Content m.ToolCalls

/-- A tool declaration (`openai.ChatCompletionToolUnionParam` built by
`openai.ChatCompletionFunctionTool`); the parameter schema is kept as text. -/
structure ToolDef where
  Name : String
  Description : String
  Parameters : String
  deriving DecidableEq, Repr

/-! ## Tools and the registry -/

/-- The interface `tools.Tool`.  `Execute` may read and change the world (clock,
network), and returns the result text or an error. -/
structure Tool (W : Type) where
  Name : String
  Definition : ToolDef
  Execute : W → String → Except GoError String × W

/-- The type `tools.Registry`: the map `tools map[string]Tool`, kept as an association
list with at most one entry per key. -/
structure Registry (W : Type) where
  tools : List (String × Tool W)

/-- The function `NewRegistry`. -/
def NewRegistry {W : Type} : Registry W := ⟨[]⟩

/-- The map assignment `m[key] = value`: replaces the entry of `key` where there is
one, adds an entry otherwise. -/
def mapSet {W : Type} (key : String) (value : Tool W) :
    List (String × Tool W) → List (String × Tool W)
  | [] => [(key, value)]
  | (k, v) :: rest =>
      if k = key then (key, value) :: rest else (k, v) :: mapSet key value rest

/-- The map read `value, exists := m[key]`. -/
def mapGet {W : Type} (key : String) : List (String × Tool W) → Option (Tool W)
  | [] => none
  | (k, v) :: rest => if k = key then some v else mapGet key rest

/-- The method `Registry.Register`. -/
def Registry.Register {W : Type} (r : Registry W) (tool : Tool W) : Registry W :=
  ⟨mapSet tool.Name tool r.tools⟩

/-- The method `Registry.Get`: `some tool` stands for `(tool, true)`, `none` for
`exists = false`. -/
def Registry.Get {W : Type} (r : Registry W) (name : String) : Option (Tool W) :=
  mapGet name r.tools

/-- The method `Registry.Definitions`.  Go leaves the iteration order of a map
unspecified; here the declarations come in the order of the association list. -/
def Registry.Definitions {W : Type} (r : Registry W) : List ToolDef :=
  r.tools.foldl (fun defs entry => defs ++ [entry.2.Definition]) []

/-- The method `Registry.List`, in the order of the association list. -/
def Registry.List {W : Type} (r : Registry W) : List String :=
  r.tools.foldl (fun names entry => names ++ [entry.1]) []

/-- A sequence of `Register` calls on a new registry, as in `assistant.New`. -/
def registerAll {W : Type} (tools : List (Tool W)) : Registry W :=
  tools.foldl Registry.Register NewRegistry

/-- The tool `DateTool`.  `clock` stands for `time.Now().Format(time.RFC3339)`: it reads
the world's clock and gives the formatted instant. -/
def DateTool {W : Type} (clock : W → String × W) : Tool W where
  Name := "get_today_date"
  Definition :=
    { Name := "get_today_date"
      Description := "Get today's date and time in RFC3339 format"
      Parameters := "" }
  Execute := fun w _arguments => (Except.ok (clock w).1, (clock w).2)

/-- The Go call `fmt.Errorf(text + "%w", err)`: the text followed by the message of the
wrapped error. -/
def fmtErrorfWrap (text : String) (err : GoError) : GoError := errorsNew (text ++ err.msg)

/-- The anonymous `payload` struct of `WeatherTool.Execute`. -/
structure WeatherPayload where
  Location : String
  IncludeForecast : Bool
  deriving DecidableEq, Repr

/-- The tool `WeatherTool`.  `unmarshal` stands for `json.Unmarshal` into the payload
struct, `GetWeather` for `weatherclient.GetWeather` (an HTTP call). -/
def WeatherTool {W : Type} (unmarshal : String → Except GoError WeatherPayload)
    (GetWeather : W → String → Bool → Except GoError String × W) : Tool W where
  Name := "get_weather"
  Definition :=
    { Name := "get_weather"
      Description := "Get current weather and optional 3-day forecast for a given location"
      Parameters := 
        "\x7b\"type\":\"object\",\"properties\":\x7b\"location\":\x7b\"type\":\"string\",\"description\":\"City name, zip code, or coordinates (e.g., 'Barcelona', '10001', '48.8567,2.3508')\"\x7d,\"include_forecast\":\x7b\"type\":\"boolean\",\"description\":\"Whether to include 3-day forecast. Default is false.\",\"default\":false\x7d\x7d,\"required\":[\"location\"]\x7d" }
  Execute := fun w arguments =>
    match unmarshal arguments with
    | Except.error err => (Except.error err, w)
    | Except.ok payload => GetWeather w payload.Location payload.IncludeForecast

/-- The tool `CalculatorTool`.  `unmarshal` stands for `json.Unmarshal` into the payload
struct (its `Expression` field), `NewEvaluableExpression` and `Evaluate` for the calls
into the expression library, `Sprint` for `fmt.Sprintf("%v", result)`. -/
def CalculatorTool {W E V : Type} (unmarshal : String → Except GoError String)
    (NewEvaluableExpression : String → Except GoError E)
    (Evaluate : E → Except GoError V) (Sprint : V → String) : Tool W where
  Name := "calculate"
  Definition :=
    { Name := "calculate"
      Description := "Evaluate mathematical expressions safely. Supports basic arithmetic, parentheses, and common math operations."
      Parameters := 
        "\x7b\"type\":\"object\",\"properties\":\x7b\"expression\":\x7b\"type\":\"string\",\"description\":\"Mathematical expression to evaluate (e.g., '2 + 2', '(10 * 5) / 2', 'sqrt(16)')\"\x7d\x7d,\"required\":[\"expression\"]\x7d" }
  Execute := fun w arguments =>
    match unmarshal arguments with
    | Except.error err => (Except.error (fmtErrorfWrap "failed to parse arguments: " err), w)
    | Except.ok source =>
        match NewEvaluableExpression source with
        | Except.error err => (Except.error (fmtErrorfWrap "invalid expression: " err), w)
        | Except.ok expression =>
            match Evaluate expression with
            | Except.error err => (Except.error (fmtErrorfWrap "failed to evaluate: " err), w)
            | Except.ok result => (Except.ok (Sprint result), w)

/-- The anonymous `payload` struct of `HolidayTool.Execute`.  An instant is an integer,
0 being the zero `time.Time` (`IsZero`). -/
structure HolidayPayload where
  BeforeDate : Int
  AfterDate : Int
  MaxCount : Int
  deriving DecidableEq, Repr

/-- A calendar event: what `GetAllDayStartAt()` returns and the value of its summary
property. -/
structure VEvent where
  AllDayStartAt : Except GoError Int
  Summary : String

/-- The loop `for _, event := range events` of `HolidayTool.Execute`, with its `continue`
and `break` exits; `formatDate` stands for `date.Format(time.DateOnly)`. -/
def holidayLoop (payload : HolidayPayload) (formatDate : Int → String) :
    List VEvent → List String → List String
  | [], holidays => holidays
  | event :: rest, holidays =>
      match event.AllDayStartAt with
      | Except.error _ => holidayLoop payload formatDate rest holidays
      | Except.ok date =>
          if payload.MaxCount > 0 ∧ (holidays.length : Int) ≥ payload.MaxCount then holidays
          else if payload.BeforeDate ≠ 0 ∧ date > payload.BeforeDate then
            holidayLoop payload formatDate rest holidays
          else if payload.AfterDate ≠ 0 ∧ date < payload.AfterDate then
            holidayLoop payload formatDate rest holidays
          else
            holidayLoop payload formatDate rest
              (holidays ++ [formatDate date ++ ": " ++ event.Summary])

/-- The tool `HolidayTool`.  `Getenv` stands for `os.Getenv`, `LoadCalendar` for
`calendarclient.LoadCalendar` (an HTTP call), `unmarshal` for `json.Unmarshal` into the
payload struct. -/
def HolidayTool {W : Type} (Getenv : W → String → String)
    (LoadCalendar : W → String → Except GoError (List VEvent) × W)
    (unmarshal : String → Except GoError HolidayPayload)
    (formatDate : Int → String) : Tool W where
  Name := "get_holidays"
  Definition :=
    { Name := "get_holidays"
      Description := "Gets local bank and public holidays. Each line is a single holiday in the format 'YYYY-MM-DD: Holiday Name'."
      Parameters := 
        "\x7b\"type\":\"object\",\"properties\":\x7b\"before_date\":\x7b\"type\":\"string\",\"description\":\"Optional date in RFC3339 format to get holidays before this date. If not provided, all holidays will be returned.\"\x7d,\"after_date\":\x7b\"type\":\"string\",\"description\":\"Optional date in RFC3339 format to get holidays after this date. If not provided, all holidays will be returned.\"\x7d,\"max_count\":\x7b\"type\":\"integer\",\"description\":\"Optional maximum number of holidays to return. If not provided, all holidays will be returned.\"\x7d\x7d\x7d" }
  Execute := fun w arguments =>
    let link :=
      if Getenv w "HOLIDAY_CALENDAR_LINK" ≠ "" then Getenv w "HOLIDAY_CALENDAR_LINK"
      else "https://www.officeholidays.com/ics/spain/catalonia"
    match LoadCalendar w link with
    | (Except.error _, w1) => (Except.ok "failed to load holiday events", w1)
    | (Except.ok events, w1) =>
        match unmarshal arguments with
        | Except.error err =>
            (Except.ok ("failed to parse tool call arguments: " ++ err.msg), w1)
        | Except.ok payload =>
            (Except.ok (String.intercalate "\n" (holidayLoop payload formatDate events [])), w1)

/-! ## The assistant -/

/-- One observable call made by `Reply`, with what was sent and what came back. -/
inductive Event where
  | backend (msgs : List ChatMsg) (tools : List ToolDef) (result : Except GoError Response)
  | execute (name : String) (arguments : String) (result : Except GoError String)

/-- The type `Assistant`: the backend client (`a.cli.Chat.Completions.New`, given the
transcript and the tool declarations) and the tool registry. -/
structure Assistant (W : Type) where
  cli : W → List ChatMsg → List ToolDef → Except GoError Response × W
  registry : Registry W

/-- The mutable state of one `Reply` invocation: the working transcript `msgs`, the
world, and the calls made so far. -/
structure LoopState (W : Type) where
  msgs : List ChatMsg
  world : W
  trace : List Event

/-- What one `Reply` invocation leaves behind: the returned pair `(reply, err)`, the
working transcript at return, the world, and the calls made. -/
structure ReplyResult (W : Type) where
  reply : String
  err : Option GoError
  msgs : List ChatMsg
  world : W
  trace : List Event

/-- The system instruction of `Reply`. -/
def replySystemPrompt : String :=
  "You are a helpful, concise AI assistant. Provide accurate, safe, and clear responses."

/-- Error text of `Reply` on a conversation without messages. -/
def errNoMessages : GoError := errorsNew "conversation has no messages"

/-- Error text of `Reply` on a response without choices. -/
def errNoChoices : GoError := errorsNew "no choices returned by OpenAI"

/-- Error text of `Reply` when the loop ceiling is reached. -/
def errTooManyToolCalls : GoError :=
  errorsNew "too many tool calls, unable to generate reply"

/-- The loop ceiling of `Reply` (`for i := 0; i < 15; i++`). -/
def maxIterations : Nat := 15

/-- The body of `for _, m := range conv.Messages` in `Reply`: the `switch m.Role`. -/
def seedStep (msgs : List ChatMsg) (m : Message) : List ChatMsg :=
  match m.Role with
  | Role.RoleUser => msgs ++ [UserMessage m.Content]
  | Role.RoleAssistant => msgs ++ [AssistantMessage m.Content]
  | _ => msgs

/-- The transcript `msgs` of `Reply` before its loop: the system instruction, then the
range loop over the conversation. -/
def seedTranscript (conv : Conversation) : List ChatMsg :=
  conv.Messages.foldl seedStep [SystemMessage replySystemPrompt]

/-- The body of `for _, call := range message.ToolCalls` in `Reply`. -/
def dispatch {W : Type} (registry : Registry W) (s : LoopState W) (call : ToolCall) :
    LoopState W :=
  match registry.Get call.Name with
  | none =>
      { s with msgs := s.msgs ++ [ToolMessage ("unknown tool: " ++ call.Name) call.ID] }
  | some tool =>
      match tool.Execute s.world call.Arguments with
      | (Except.error err, w) =>
          { msgs := s.msgs ++ [ToolMessage ("tool execution failed: " ++ err.msg) call.ID]
            world := w
            trace := s.trace ++ [Event.execute call.Name call.Arguments (Except.error err)] }
      | (Except.ok result, w) =>
          { msgs := s.msgs ++ [ToolMessage result call.ID]
            world := w
            trace := s.trace ++ [Event.execute call.Name call.Arguments (Except.ok result)] }

/-- The branch `len(message.ToolCalls) > 0` of `Reply`: append the assistant's message,
then dispatch the calls in order. -/
def toolRound {W : Type} (registry : Registry W) (s : LoopState W)
    (message : ChoiceMessage) : LoopState W :=
  message.ToolCalls.foldl (dispatch registry)
    { s with msgs := s.msgs ++ [message.ToParam] }

/-- The loop `for i := 0; i < 15; i++` of `Reply` with `remaining = 15 - i` iterations
left, and the `return` after it. -/
def replyLoop {W : Type} (a : Assistant W) : Nat → LoopState W → ReplyResult W
  | 0, s =>
      { reply := "", err := some errTooManyToolCalls,
        msgs := s.msgs, world := s.world, trace := s.trace }
  | remaining + 1, s =>
      match a.cli s.world s.msgs a.registry.Definitions with
      | (Except.error err, w) =>
          { reply := "", err := some err, msgs := s.msgs, world := w,
            trace := s.trace ++ [Event.backend s.msgs a.registry.Definitions (Except.error err)] }
      | (Except.ok resp, w) =>
          let s1 : LoopState W :=
            { msgs := s.msgs, world := w,
              trace := s.trace ++ [Event.backend s.msgs a.registry.Definitions (Except.ok resp)] }
          match resp.Choices with
          | [] =>
              { reply := "", err := some errNoChoices,
                msgs := s1.msgs, world := s1.world, trace := s1.trace }
          | choice :: _ =>
              if choice.Message.ToolCalls.length > 0 then
                replyLoop a remaining (toolRound a.registry s1 choice.Message)
              else
                { reply := choice.Message.Content, err := none,
                  msgs := s1.msgs, world := s1.world, trace := s1.trace }

/-- The method `Assistant.Reply`. -/
def Reply {W : Type} (a : Assistant W) (conv : Conversation) (w : W) : ReplyResult W :=
  if conv.Messages.length = 0 then
    { reply := "", err := some errNoMessages, msgs := [], world := w, trace := [] }
  else
    replyLoop a maxIterations { msgs := seedTranscript conv, world := w, trace := [] }

/-- Number of backend calls in a trace. -/
def backendCalls : List Event → Nat
  | [] => 0
  | Event.backend _ _ _ :: rest => backendCalls rest + 1
  | Event.execute _ _ _ :: rest => backendCalls rest

/-- Number of tool `Execute` calls in a trace. -/
def executeCalls : List Event → Nat
  | [] => 0
  | Event.backend _ _ _ :: rest => executeCalls rest
  | Event.execute _ _ _ :: rest => executeCalls rest + 1

/-- The call id a Tool-role transcript entry answers; `none` for the other roles. -/
def ChatMsg.toolCallID? : ChatMsg → Option String
  | ChatMsg.tool _ toolCallID => some toolCallID
  | _ => none

/-- The loop state right after the backend answered `resp` in an iteration started in
state `s`, leaving the world `w`. -/
def answered {W : Type} (a : Assistant W) (s : LoopState W) (resp : Response) (w : W) :
    LoopState W :=
  { msgs := s.msgs, world := w,
    trace := s.trace ++ [Event.backend s.msgs a.registry.Definitions (Except.ok resp)] }

/-- The loop state in which the request that follows the requests `before` of `message`
is dispatched: the assistant's message appended, then `before` dispatched in order. -/
def reachedState {W : Type} (registry : Registry W) (s1 : LoopState W)
    (message : ChoiceMessage) (before : List ToolCall) : LoopState W :=
  before.foldl (dispatch registry) { s1 with msgs := s1.msgs ++ [message.ToParam] }

/-- Whether an event is a tool `Execute` call. -/
def Event.isExecute : Event → Bool
  | Event.execute _ _ _ => true
  | Event.backend _ _ _ => false

/-! ## Go strings as bytes, and the string functions `Title` uses

`len(s)` and `s[:n]` of Go count and cut bytes of the UTF-8 form of a string, so the title
is kept as its list of bytes. -/

/-- UTF-8 encoding of one code point. -/
def utf8EncodeRune (c : Nat) : List Nat :=
  if c < 0x80 then [c]
  else if c < 0x800 then [0xC0 + c / 0x40, 0x80 + c % 0x40]
  else if c < 0x10000 then [0xE0 + c / 0x1000, 0x80 + c / 0x40 % 0x40, 0x80 + c % 0x40]
  else [0xF0 + c / 0x40000, 0x80 + c / 0x1000 % 0x40, 0x80 + c / 0x40 % 0x40, 0x80 + c % 0x40]

/-- The bytes of a Go string holding the text `s`. -/
def goBytes (s : String) : List Nat :=
  s.data.flatMap (fun c => utf8EncodeRune c.toNat)

/-- The Go predicate `unicode.IsSpace`. -/
def unicodeIsSpace (c : Char) : Bool :=
  (0x09 ≤ c.toNat && c.toNat ≤ 0x0D) || c.toNat = 0x20 || c.toNat = 0x85 || c.toNat = 0xA0 ||
  c.toNat = 0x1680 || (0x2000 ≤ c.toNat && c.toNat ≤ 0x200A) || c.toNat = 0x2028 ||
  c.toNat = 0x2029 || c.toNat = 0x202F || c.toNat = 0x205F || c.toNat = 0x3000

/-- The Go function `strings.TrimSpace`: leading and trailing white space, as defined by
Unicode, removed. -/
def TrimSpace (s : String) : String :=
  ⟨((s.data.dropWhile unicodeIsSpace).reverse.dropWhile unicodeIsSpace).reverse⟩

/-- The Go function `strings.ReplaceAll(s, old, new)` for a one-byte `old`: every
occurrence of the byte is replaced by the bytes `new`. -/
def ReplaceAll (s : List Nat) (old : Nat) (new : List Nat) : List Nat :=
  s.flatMap (fun b => if b = old then new else [b])

/-- The Go function `strings.Trim(s, cutset)` for a cutset of ASCII bytes
(`trimLeftASCII(trimRightASCII(s))`): leading and trailing bytes of the cutset removed. -/
def Trim (s : List Nat) (cutset : List Nat) : List Nat :=
  ((s.reverse.dropWhile (fun b => decide (b ∈ cutset))).reverse).dropWhile
    (fun b => decide (b ∈ cutset))

/-- The cutset of `Title`: space, tab, carriage return, line feed, dash, double quote,
single quote. -/
def titleCutset : List Nat := [0x20, 0x09, 0x0D, 0x0A, 0x2D, 0x22, 0x27]

/-! ## The title summarizer -/

/-- The system instruction of `Title`. -/
def titleSystemPrompt : String :=
  "Generate a concise, descriptive title for the conversation based on the user's first message. The title should be a single line, no more than 80 characters, and should not include any special characters or emojis. Only return the title, nothing else."

/-- Error text of `Title` on an empty response. -/
def errEmptyTitle : GoError := errorsNew "empty response from OpenAI for title generation"

/-- The loop `for _, m := range conv.Messages` of `Title`, with its `break` after the
first User message. -/
def titleMessages : List Message → List ChatMsg → List ChatMsg
  | [], msgs => msgs
  | m :: rest, msgs =>
      if m.Role = Role.RoleUser then msgs ++ [UserMessage m.Content]
      else titleMessages rest msgs

/-- What one `Title` invocation leaves behind: the returned pair `(title, err)`, the title
as bytes, the world, and the calls made. -/
structure TitleResult (W : Type) where
  title : List Nat
  err : Option GoError
  world : W
  trace : List Event

/-- The post-processing of `Title` on the raw content: line feeds to spaces, trim,
cut to 80 bytes. -/
def titlePostProcess (content : String) : List Nat :=
  let title := goBytes content
  let title := ReplaceAll title 0x0A (goBytes " ")
  let title := Trim title titleCutset
  if title.length > 80 then title.take 80 else title

/-- The method `Assistant.Title`.  Its backend call passes no tool declarations. -/
def Title {W : Type} (a : Assistant W) (conv : Conversation) (w : W) : TitleResult W :=
  if conv.Messages.length = 0 then
    { title := goBytes "An empty conversation", err := none, world := w, trace := [] }
  else
    let msgs := titleMessages conv.Messages [SystemMessage titleSystemPrompt]
    match a.cli w msgs [] with
    | (Except.error err, w1) =>
        { title := [], err := some err, world := w1,
          trace := [Event.backend msgs [] (Except.error err)] }
    | (Except.ok resp, w1) =>
        match resp.Choices with
        | [] =>
            { title := [], err := some errEmptyTitle, world := w1,
              trace := [Event.backend msgs [] (Except.ok resp)] }
        | choice :: _ =>
            if TrimSpace choice.Message.Content = "" then
              { title := [], err := some errEmptyTitle, world := w1,
                trace := [Event.backend msgs [] (Except.ok resp)] }
            else
              { title := titlePostProcess choice.Message.Content, err := none, world := w1,
                trace := [Event.backend msgs [] (Except.ok resp)] }

/-! ## Concrete backends, tools and conversations used to instantiate the theorems

The world of these stubs is a counter of the calls answered so far. -/

/-- A clock stub: the counter, printed, and the counter advanced. -/
def stubClock (w : Nat) : String × Nat := (toString w, w + 1)

/-- A tool stub whose `Execute` always fails. -/
def failingTool : Tool Nat where
  Name := "get_weather"
  Definition := { Name := "get_weather", Description := "", Parameters := "" }
  Execute := fun w _arguments => (Except.error (errorsNew "boom"), w + 1)

/-- A registry stub holding the date tool and the failing tool. -/
def stubRegistry : Registry Nat :=
  (NewRegistry.Register (DateTool stubClock)).Register failingTool

/-- A request for the date tool. -/
def dateCall : ToolCall := { ID := "call_1", Name := "get_today_date", Arguments := "" }

/-- A request for a tool that is not registered. -/
def ghostCall : ToolCall := { ID := "call_2", Name := "ghost", Arguments := "" }

/-- A request for the failing tool. -/
def failCall : ToolCall := { ID := "call_3", Name := "get_weather", Arguments := "" }

/-- A response whose only choice requests the date tool. -/
def dateResponse : Response := ⟨[⟨{ Content := "", ToolCalls := [dateCall] }⟩]⟩

/-- A backend stub that requests the date tool on every call. -/
def loopingAssistant : Assistant Nat where
  cli := fun w _msgs _tools => (Except.ok dateResponse, w + 1)
  registry := stubRegistry

/-- A message requesting the date tool, an unregistered tool and the failing tool. -/
def mixedMessage : ChoiceMessage :=
  { Content := "", ToolCalls := [dateCall, ghostCall, failCall] }

/-- A response whose only choice is `mixedMessage`. -/
def mixedResponse : Response := ⟨[⟨mixedMessage⟩]⟩

/-- A response whose only choice is a final text. -/
def finalResponse : Response := ⟨[⟨{ Content := "Today is X", ToolCalls := [] }⟩]⟩

/-- A backend stub that answers `mixedResponse` in world 0 and the final text later. -/
def mixedAssistant : Assistant Nat where
  cli := fun w _msgs _tools =>
    if w = 0 then (Except.ok mixedResponse, w + 1) else (Except.ok finalResponse, w + 1)
  registry := stubRegistry

/-- A backend stub that requests the date tool in world 0 and answers the final text
later. -/
def roundTripAssistant : Assistant Nat where
  cli := fun w _msgs _tools =>
    if w = 0 then (Except.ok dateResponse, w + 1) else (Except.ok finalResponse, w + 1)
  registry := stubRegistry

/-- A backend stub that requests the date tool in world 0 and fails later. -/
def flakyAssistant : Assistant Nat where
  cli := fun w _msgs _tools =>
    if w = 0 then (Except.ok dateResponse, w + 1)
    else (Except.error (errorsNew "rate limited"), w + 1)
  registry := stubRegistry

/-- A backend stub that requests the date tool in world 0 and later answers without any
choice. -/
def choicelessAssistant : Assistant Nat where
  cli := fun w _msgs _tools =>
    if w = 0 then (Except.ok dateResponse, w + 1) else (Except.ok ⟨[]⟩, w + 1)
  registry := stubRegistry

/-- A conversation with a message of every role. -/
def fourRoleConv : Conversation :=
  ⟨[⟨Role.RoleSystem, "be brief"⟩, ⟨Role.RoleUser, "hi"⟩, ⟨Role.RoleTool, "42"⟩,
    ⟨Role.RoleAssistant, "hello"⟩, ⟨Role.RoleUser, "what day is it?"⟩]⟩

/-- A loop state with a one-message transcript, world 0 and no call made yet. -/
def startState : LoopState Nat := { msgs := [ChatMsg.user "hi"], world := 0, trace := [] }

/-- A conversation of one user message. -/
def helloConv : Conversation := ⟨[⟨Role.RoleUser, "What day is it?"⟩]⟩

/-- The conversation without messages. -/
def emptyConv : Conversation := ⟨[]⟩

/-- A backend stub that answers at once with an empty final text. -/
def silentAssistant : Assistant Nat where
  cli := fun w _msgs _tools =>
    (Except.ok ⟨[⟨{ Content := "", ToolCalls := [] }⟩]⟩, w + 1)
  registry := stubRegistry

/-- A backend stub that answers every call with the one choice `content`. -/
def titleAssistant (content : String) : Assistant Nat where
  cli := fun w _msgs _tools =>
    (Except.ok ⟨[⟨{ Content := content, ToolCalls := [] }⟩]⟩, w + 1)
  registry := stubRegistry

/-- A backend content of 81 bytes whose 80th byte is a space. -/
def longContent : String :=
  "aaaaaaaaaaaaaaaaaaaaaaaaaaaaaaaaaaaaaaaaaaaaaaaaaaaaaaaaaaaaaaaaaaaaaaaaaaaaaaa b"

/-- A stub of `json.Unmarshal` that accepts the text of the empty object only and rejects
everything else with the message Go gives for the text "not json". -/
def stubUnmarshal {α : Type} (zero : α) (arguments : String) : Except GoError α :=
  if arguments = "\x7b\x7d" then Except.ok zero
  else Except.error (errorsNew "invalid character 'o' in literal null (expecting 'u')")

/-- The weather tool over stubs. -/
def stubWeatherTool : Tool Nat :=
  WeatherTool (stubUnmarshal ⟨"", false⟩) (fun w _location _forecast => (Except.ok "sunny", w + 1))

/-- The calculator tool over stubs. -/
def stubCalculatorTool : Tool Nat :=
  CalculatorTool (stubUnmarshal "") (fun source => Except.ok source)
    (fun expression => Except.ok expression) (fun result => result)

/-- The holiday tool over stubs: the calendar loads, with one event. -/
def stubHolidayTool : Tool Nat :=
  HolidayTool (fun _ _ => "")
    (fun w _link => (Except.ok [⟨Except.ok 1, "New Year"⟩], w + 1))
    (stubUnmarshal ⟨0, 0, 0⟩) (fun _ => "2025-01-01")

/-- The holiday tool over stubs: the calendar does not load. -/
def offlineHolidayTool : Tool Nat :=
  HolidayTool (fun _ _ => "")
    (fun w _link => (Except.error (errorsNew "failed to parse calendar: offline"), w + 1))
    (stubUnmarshal ⟨0, 0, 0⟩) (fun _ => "2025-01-01")

/-- A registry stub with the three tools that take parameters. -/
def toolsRegistry : Registry Nat :=
  registerAll [stubWeatherTool, stubCalculatorTool, stubHolidayTool]

/-- A second tool stub named like the date tool. -/
def otherDateTool : Tool Nat where
  Name := "get_today_date"
  Definition := { Name := "get_today_date", Description := "another date tool", Parameters := "" }
  Execute := fun w _arguments => (Except.ok "tomorrow", w + 1)

/-- A backend content of 80 characters and 81 bytes: 79 times the letter a, then the
two-byte character U+00E9. -/
def accentContent : String :=
  "aaaaaaaaaaaaaaaaaaaaaaaaaaaaaaaaaaaaaaaaaaaaaaaaaaaaaaaaaaaaaaaaaaaaaaaaaaaaaaaé"

/-- A conversation whose first User message comes second. -/
def laterUserConv : Conversation :=
  ⟨[⟨Role.RoleAssistant, "welcome"⟩, ⟨Role.RoleUser, "first question"⟩,
    ⟨Role.RoleAssistant, "an answer"⟩, ⟨Role.RoleUser, "second question"⟩]⟩

/-! ## Stepping lemmas for the loop -/

theorem replyLoop_zero {W : Type} (a : Assistant W) (s : LoopState W) :
    replyLoop a 0 s =
      { reply := "", err := some errTooManyToolCalls,
        msgs := s.msgs, world := s.world, trace := s.trace } := rfl

theorem replyLoop_backend_error {W : Type} (a : Assistant W) (n : Nat) (s : LoopState W)
    (e : GoError) (w : W)
    (h : a.cli s.world s.msgs a.registry.Definitions = (Except.error e, w)) :
    replyLoop a (n + 1) s =
      { reply := "", err := some e, msgs := s.msgs, world := w,
        trace := s.trace ++ [Event.backend s.msgs a.registry.Definitions (Except.error e)] } := by
  simp [replyLoop, h]

theorem replyLoop_no_choices {W : Type} (a : Assistant W) (n : Nat) (s : LoopState W)
    (resp : Response) (w : W)
    (h : a.cli s.world s.msgs a.registry.Definitions = (Except.ok resp, w))
    (hc : resp.Choices = []) :
    replyLoop a (n + 1) s =
      { reply := "", err := some errNoChoices, msgs := s.msgs, world := w,
        trace := s.trace ++ [Event.backend s.msgs a.registry.Definitions (Except.ok resp)] } := by
  simp [replyLoop, h, hc]

theorem replyLoop_tool_calls {W : Type} (a : Assistant W) (n : Nat) (s : LoopState W)
    (resp : Response) (w : W) (choice : Choice) (rest : List Choice)
    (h : a.cli s.world s.msgs a.registry.Definitions = (Except.ok resp, w))
    (hc : resp.Choices = choice :: rest) (ht : choice.Message.ToolCalls ≠ []) :
    replyLoop a (n + 1) s =
      replyLoop a n (toolRound a.registry
        { msgs := s.msgs, world := w,
          trace := s.trace ++ [Event.backend s.msgs a.registry.Definitions (Except.ok resp)] }
        choice.Message) := by
  have hpos : 0 < choice.Message.ToolCalls.length := List.length_pos.mpr ht
  simp [replyLoop, h, hc, hpos]

theorem replyLoop_final {W : Type} (a : Assistant W) (n : Nat) (s : LoopState W)
    (resp : Response) (w : W) (choice : Choice) (rest : List Choice)
    (h : a.cli s.world s.msgs a.registry.Definitions = (Except.ok resp, w))
    (hc : resp.Choices = choice :: rest) (ht : choice.Message.ToolCalls = []) :
    replyLoop a (n + 1) s =
      { reply := choice.Message.Content, err := none, msgs := s.msgs, world := w,
        trace := s.trace ++ [Event.backend s.msgs a.registry.Definitions (Except.ok resp)] } := by
  simp [replyLoop, h, hc, ht]

/-! ## What one dispatch and one tool round add to the trace -/

theorem dispatch_trace {W : Type} (registry : Registry W) (s : LoopState W) (call : ToolCall) :
    ∃ t, (dispatch registry s call).trace = s.trace ++ t ∧
      ∀ ev ∈ t, Event.isExecute ev = true := by
  cases hg : registry.Get call.Name with
  | none => exact ⟨[], by simp [dispatch, hg]⟩
  | some tool =>
      rcases hx : tool.Execute s.world call.Arguments with ⟨r, w⟩
      cases r with
      | error err =>
          exact ⟨[Event.execute call.Name call.Arguments (Except.error err)],
            by simp [dispatch, hg, hx, Event.isExecute]⟩
      | ok result =>
          exact ⟨[Event.execute call.Name call.Arguments (Except.ok result)],
            by simp [dispatch, hg, hx, Event.isExecute]⟩

theorem foldl_dispatch_trace {W : Type} (registry : Registry W) (calls : List ToolCall) :
    ∀ s : LoopState W, ∃ t, (calls.foldl (dispatch registry) s).trace = s.trace ++ t ∧
      ∀ ev ∈ t, Event.isExecute ev = true := by
  induction calls with
  | nil => intro s; exact ⟨[], by simp⟩
  | cons c rest ih =>
      intro s
      obtain ⟨t1, h1, e1⟩ := dispatch_trace registry s c
      obtain ⟨t2, h2, e2⟩ := ih (dispatch registry s c)
      refine ⟨t1 ++ t2, ?_, ?_⟩
      · simp [List.foldl, h2, h1]
      · intro ev hev
        rcases List.mem_append.mp hev with h | h
        · exact e1 ev h
        · exact e2 ev h

theorem toolRound_trace {W : Type} (registry : Registry W) (s : LoopState W)
    (message : ChoiceMessage) :
    ∃ t, (toolRound registry s message).trace = s.trace ++ t ∧
      ∀ ev ∈ t, Event.isExecute ev = true := by
  unfold toolRound
  exact foldl_dispatch_trace registry message.ToolCalls _

theorem backendCalls_append (l1 l2 : List Event) :
    backendCalls (l1 ++ l2) = backendCalls l1 + backendCalls l2 := by
  induction l1 with
  | nil => simp [backendCalls]
  | cons ev rest ih =>
      cases ev with
      | backend m d r => simp [backendCalls, ih]; omega
      | execute n x r => simp [backendCalls, ih]

theorem backendCalls_of_isExecute (t : List Event)
    (h : ∀ ev ∈ t, Event.isExecute ev = true) : backendCalls t = 0 := by
  induction t with
  | nil => rfl
  | cons ev rest ih =>
      cases ev with
      | backend m d r =>
          have := h (Event.backend m d r) (List.mem_cons_self _ _)
          simp [Event.isExecute] at this
      | execute n x r =>
          simp only [backendCalls]
          exact ih (fun ev hev => h ev (List.mem_cons_of_mem _ hev))

/-! ## What one dispatch and one tool round add to the transcript -/

theorem dispatch_msgs {W : Type} (registry : Registry W) (s : LoopState W) (call : ToolCall) :
    ∃ content, (dispatch registry s call).msgs = s.msgs ++ [ChatMsg.tool content call.ID] ∧
      ∀ (tool : Tool W) (result : String) (w : W), registry.Get call.Name = some tool →
        tool.Execute s.world call.Arguments = (Except.ok result, w) → content = result := by
  cases hg : registry.Get call.Name with
  | none =>
      exact ⟨"unknown tool: " ++ call.Name, by simp [dispatch, hg, ToolMessage],
        by intro _ _ _ h; cases h⟩
  | some tool =>
      rcases hx : tool.Execute s.world call.Arguments with ⟨r, w⟩
      cases r with
      | error err =>
          refine ⟨"tool execution failed: " ++ err.msg,
            by simp [dispatch, hg, hx, ToolMessage], ?_⟩
          intro tool2 result w2 h1 h2
          cases h1
          rw [hx] at h2
          cases h2
      | ok result =>
          refine ⟨result, by simp [dispatch, hg, hx, ToolMessage], ?_⟩
          intro tool2 result2 w2 h1 h2
          cases h1
          rw [hx] at h2
          cases h2
          rfl

theorem foldl_dispatch_msgs {W : Type} (registry : Registry W) (calls : List ToolCall) :
    ∀ s : LoopState W, ∃ toolMsgs,
      (calls.foldl (dispatch registry) s).msgs = s.msgs ++ toolMsgs ∧
      toolMsgs.map ChatMsg.toolCallID? = calls.map (fun c => some c.ID) ∧
      ∀ (k : Nat) (call : ToolCall) (tool : Tool W) (result : String) (w : W),
        calls[k]? = some call → registry.Get call.Name = some tool →
        tool.Execute ((calls.take k).foldl (dispatch registry) s).world call.Arguments =
          (Except.ok result, w) →
        toolMsgs[k]? = some (ChatMsg.tool result call.ID) := by
  induction calls with
  | nil => intro s; exact ⟨[], by simp, by simp, by simp⟩
  | cons c rest ih =>
      intro s
      obtain ⟨content, hm, hcontent⟩ := dispatch_msgs registry s c
      obtain ⟨tm, h1, h2, h3⟩ := ih (dispatch registry s c)
      refine ⟨ChatMsg.tool content c.ID :: tm, ?_, ?_, ?_⟩
      · simp [List.foldl, h1, hm]
      · simp [ChatMsg.toolCallID?, h2]
      · intro k call tool result w hk hg hx
        cases k with
        | zero =>
            simp only [List.getElem?_cons_zero, Option.some.injEq] at hk
            subst hk
            simp only [List.take_zero, List.foldl_nil] at hx
            rw [hcontent tool result w hg hx]
            simp
        | succ k =>
            simp only [List.getElem?_cons_succ] at hk
            simp only [List.take_succ_cons, List.foldl_cons] at hx
            simpa using h3 k call tool result w hk hg hx

/-! ## The trace only grows, and an iteration starts with a backend call -/

theorem replyLoop_trace_extends {W : Type} (a : Assistant W) :
    ∀ (n : Nat) (s : LoopState W), ∃ new, (replyLoop a n s).trace = s.trace ++ new := by
  intro n
  induction n with
  | zero => intro s; exact ⟨[], by simp [replyLoop_zero]⟩
  | succ n ih =>
      intro s
      rcases h : a.cli s.world s.msgs a.registry.Definitions with ⟨r, w⟩
      cases r with
      | error e => exact ⟨[_], by rw [replyLoop_backend_error a n s e w h]⟩
      | ok resp =>
          cases hc : resp.Choices with
          | nil => exact ⟨[_], by rw [replyLoop_no_choices a n s resp w h hc]⟩
          | cons choice rest =>
              by_cases ht : choice.Message.ToolCalls = []
              · exact ⟨[_], by rw [replyLoop_final a n s resp w choice rest h hc ht]⟩
              · rw [replyLoop_tool_calls a n s resp w choice rest h hc ht]
                obtain ⟨t, htr, _⟩ := toolRound_trace a.registry
                  { msgs := s.msgs, world := w,
                    trace := s.trace ++
                      [Event.backend s.msgs a.registry.Definitions (Except.ok resp)] }
                  choice.Message
                obtain ⟨new, hnew⟩ := ih (toolRound a.registry
                  { msgs := s.msgs, world := w,
                    trace := s.trace ++
                      [Event.backend s.msgs a.registry.Definitions (Except.ok resp)] }
                  choice.Message)
                refine ⟨Event.backend s.msgs a.registry.Definitions (Except.ok resp) ::
                  (t ++ new), ?_⟩
                rw [hnew, htr]
                simp

theorem replyLoop_first_call {W : Type} (a : Assistant W) (n : Nat) (s : LoopState W) :
    ∃ rest, (replyLoop a (n + 1) s).trace =
      s.trace ++ Event.backend s.msgs a.registry.Definitions
        (a.cli s.world s.msgs a.registry.Definitions).1 :: rest := by
  rcases h : a.cli s.world s.msgs a.registry.Definitions with ⟨r, w⟩
  cases r with
  | error e => exact ⟨[], by rw [replyLoop_backend_error a n s e w h]⟩
  | ok resp =>
      cases hc : resp.Choices with
      | nil => exact ⟨[], by rw [replyLoop_no_choices a n s resp w h hc]⟩
      | cons choice rest =>
          by_cases ht : choice.Message.ToolCalls = []
          · exact ⟨[], by rw [replyLoop_final a n s resp w choice rest h hc ht]⟩
          · rw [replyLoop_tool_calls a n s resp w choice rest h hc ht]
            obtain ⟨t, htr, _⟩ := toolRound_trace a.registry
              { msgs := s.msgs, world := w,
                trace := s.trace ++
                  [Event.backend s.msgs a.registry.Definitions (Except.ok resp)] }
              choice.Message
            obtain ⟨new, hnew⟩ := replyLoop_trace_extends a n (toolRound a.registry
              { msgs := s.msgs, world := w,
                trace := s.trace ++
                  [Event.backend s.msgs a.registry.Definitions (Except.ok resp)] }
              choice.Message)
            refine ⟨t ++ new, ?_⟩
            rw [hnew, htr]
            simp

/-! ## Bounds on the number of backend calls -/

theorem replyLoop_backendCalls_le {W : Type} (a : Assistant W) :
    ∀ (n : Nat) (s : LoopState W),
      backendCalls (replyLoop a n s).trace ≤ backendCalls s.trace + n := by
  intro n
  induction n with
  | zero => intro s; simp [replyLoop_zero]
  | succ n ih =>
      intro s
      rcases h : a.cli s.world s.msgs a.registry.Definitions with ⟨r, w⟩
      cases r with
      | error e =>
          rw [replyLoop_backend_error a n s e w h]
          simp [backendCalls_append, backendCalls]
      | ok resp =>
          cases hc : resp.Choices with
          | nil =>
              rw [replyLoop_no_choices a n s resp w h hc]
              simp [backendCalls_append, backendCalls]
          | cons choice rest =>
              by_cases ht : choice.Message.ToolCalls = []
              · rw [replyLoop_final a n s resp w choice rest h hc ht]
                simp [backendCalls_append, backendCalls]
              · rw [replyLoop_tool_calls a n s resp w choice rest h hc ht]
                obtain ⟨t, htr, hex⟩ := toolRound_trace a.registry
                  { msgs := s.msgs, world := w,
                    trace := s.trace ++
                      [Event.backend s.msgs a.registry.Definitions (Except.ok resp)] }
                  choice.Message
                have h1 := ih (toolRound a.registry
                  { msgs := s.msgs, world := w,
                    trace := s.trace ++
                      [Event.backend s.msgs a.registry.Definitions (Except.ok resp)] }
                  choice.Message)
                rw [htr] at h1
                simp only [backendCalls_append, backendCalls_of_isExecute t hex,
                  backendCalls] at h1
                omega

theorem replyLoop_always_tool_calls {W : Type} (a : Assistant W)
    (hAll : ∀ (w : W) (msgs : List ChatMsg) (tools : List ToolDef),
      ∃ resp choice rest, (a.cli w msgs tools).1 = Except.ok resp ∧
        resp.Choices = choice :: rest ∧ choice.Message.ToolCalls ≠ []) :
    ∀ (n : Nat) (s : LoopState W),
      backendCalls (replyLoop a n s).trace = backendCalls s.trace + n ∧
      (replyLoop a n s).err = some errTooManyToolCalls ∧ (replyLoop a n s).reply = "" := by
  intro n
  induction n with
  | zero => intro s; simp [replyLoop_zero]
  | succ n ih =>
      intro s
      obtain ⟨resp, choice, rest, h1, hc, ht⟩ := hAll s.world s.msgs a.registry.Definitions
      have h : a.cli s.world s.msgs a.registry.Definitions =
          (Except.ok resp, (a.cli s.world s.msgs a.registry.Definitions).2) := by
        rw [← h1]
      rw [replyLoop_tool_calls a n s resp _ choice rest h hc ht]
      obtain ⟨t, htr, hex⟩ := toolRound_trace a.registry
        { msgs := s.msgs, world := (a.cli s.world s.msgs a.registry.Definitions).2,
          trace := s.trace ++
            [Event.backend s.msgs a.registry.Definitions (Except.ok resp)] }
        choice.Message
      obtain ⟨i1, i2, i3⟩ := ih (toolRound a.registry
        { msgs := s.msgs, world := (a.cli s.world s.msgs a.registry.Definitions).2,
          trace := s.trace ++
            [Event.backend s.msgs a.registry.Definitions (Except.ok resp)] }
        choice.Message)
      refine ⟨?_, i2, i3⟩
      rw [i1, htr]
      simp only [backendCalls_append, backendCalls_of_isExecute t hex, backendCalls]
      omega

/-! ## Claims about `Reply` -/

/-- C1: on a conversation with zero messages `Reply` returns the empty reply string
together with the error "conversation has no messages", and it makes no backend call and
no tool `Execute` call (its trace is empty and the world is untouched). -/
theorem Reply_empty_conversation {W : Type} (a : Assistant W) (conv : Conversation) (w : W)
    (h : conv.Messages = []) :
    (Reply a conv w).reply = "" ∧
    (Reply a conv w).err = some (errorsNew "conversation has no messages") ∧
    (Reply a conv w).trace = [] ∧
    backendCalls (Reply a conv w).trace = 0 ∧
    executeCalls (Reply a conv w).trace = 0 ∧
    (Reply a conv w).world = w := by
  simp [Reply, h, errNoMessages, backendCalls, executeCalls]

theorem Reply_empty_conversation_witness :
    emptyConv.Messages = [] ∧
    (Reply loopingAssistant emptyConv 0).reply = "" ∧
    (Reply loopingAssistant emptyConv 0).err =
      some (errorsNew "conversation has no messages") ∧
    (Reply loopingAssistant emptyConv 0).trace = [] ∧
    backendCalls (Reply loopingAssistant emptyConv 0).trace = 0 ∧
    executeCalls (Reply loopingAssistant emptyConv 0).trace = 0 ∧
    (Reply loopingAssistant emptyConv 0).world = 0 :=
  ⟨rfl, Reply_empty_conversation loopingAssistant emptyConv 0 rfl⟩

theorem replyLoop_tool_calls_until_ceiling {W : Type} (a : Assistant W) :
    ∀ (n : Nat) (s : LoopState W) (new : List Event),
      (replyLoop a n s).trace = s.trace ++ new →
      (∀ msgs tools r, Event.backend msgs tools r ∈ new →
        ∃ resp choice rest, r = Except.ok resp ∧ resp.Choices = choice :: rest ∧
          choice.Message.ToolCalls ≠ []) →
      backendCalls new = n ∧ (replyLoop a n s).err = some errTooManyToolCalls ∧
        (replyLoop a n s).reply = "" := by
  intro n
  induction n with
  | zero =>
      intro s new htr _
      simp only [replyLoop_zero, self_eq_add_right, List.self_eq_append_right] at htr
      rw [htr]
      exact ⟨rfl, rfl, rfl⟩
  | succ n ih =>
      intro s new htr hall
      rcases h : a.cli s.world s.msgs a.registry.Definitions with ⟨r0, w⟩
      cases r0 with
      | error e0 =>
          rw [replyLoop_backend_error a n s e0 w h] at htr
          simp only [List.append_cancel_left_eq] at htr
          obtain ⟨resp, choice, rest, hr, _⟩ := hall s.msgs a.registry.Definitions
            (Except.error e0) (by rw [← htr]; simp)
          cases hr
      | ok resp0 =>
          cases hc : resp0.Choices with
          | nil =>
              rw [replyLoop_no_choices a n s resp0 w h hc] at htr
              simp only [List.append_cancel_left_eq] at htr
              obtain ⟨resp, choice, rest, hr, hch, _⟩ := hall s.msgs a.registry.Definitions
                (Except.ok resp0) (by rw [← htr]; simp)
              cases hr
              rw [hc] at hch
              cases hch
          | cons choice0 rest0 =>
              by_cases ht : choice0.Message.ToolCalls = []
              · rw [replyLoop_final a n s resp0 w choice0 rest0 h hc ht] at htr
                simp only [List.append_cancel_left_eq] at htr
                obtain ⟨resp, choice, rest, hr, hch, hnt⟩ :=
                  hall s.msgs a.registry.Definitions (Except.ok resp0) (by rw [← htr]; simp)
                cases hr
                rw [hc] at hch
                simp only [List.cons.injEq] at hch
                rw [← hch.1] at hnt
                exact absurd ht hnt
              · rw [replyLoop_tool_calls a n s resp0 w choice0 rest0 h hc ht] at htr ⊢
                obtain ⟨t, htt, hexec⟩ := toolRound_trace a.registry
                  { msgs := s.msgs, world := w,
                    trace := s.trace ++
                      [Event.backend s.msgs a.registry.Definitions (Except.ok resp0)] }
                  choice0.Message
                obtain ⟨new2, hnew2⟩ := replyLoop_trace_extends a n (toolRound a.registry
                  { msgs := s.msgs, world := w,
                    trace := s.trace ++
                      [Event.backend s.msgs a.registry.Definitions (Except.ok resp0)] }
                  choice0.Message)
                have hshape : new =
                    Event.backend s.msgs a.registry.Definitions (Except.ok resp0) ::
                      (t ++ new2) := by
                  have := htr.symm.trans hnew2
                  rw [htt] at this
                  simpa using this
                obtain ⟨i1, i2, i3⟩ := ih _ new2 hnew2
                  (fun msgs tools r hmem => hall msgs tools r (by rw [hshape]; simp [hmem]))
                refine ⟨?_, i2, i3⟩
                rw [hshape]
                simp only [backendCalls, backendCalls_append,
                  backendCalls_of_isExecute t hexec, i1]
                omega

theorem replyLoop_backend_results {W : Type} (a : Assistant W) :
    ∀ (n : Nat) (s : LoopState W) (new : List Event),
      (replyLoop a n s).trace = s.trace ++ new →
      ∀ msgs tools r, Event.backend msgs tools r ∈ new →
        ∃ w0, r = (a.cli w0 msgs tools).1 := by
  intro n
  induction n with
  | zero =>
      intro s new htr msgs tools r hmem
      simp only [replyLoop_zero, self_eq_add_right, List.self_eq_append_right] at htr
      rw [htr] at hmem
      cases hmem
  | succ n ih =>
      intro s new htr msgs tools r hmem
      rcases h : a.cli s.world s.msgs a.registry.Definitions with ⟨r0, w⟩
      have hfirst : ∀ tail, new = [Event.backend s.msgs a.registry.Definitions r0] ++ tail →
          Event.backend msgs tools r ∈
            [Event.backend s.msgs a.registry.Definitions r0] →
          ∃ w0, r = (a.cli w0 msgs tools).1 := by
        intro _ _ hm
        simp only [List.mem_singleton, Event.backend.injEq] at hm
        obtain ⟨hm1, hm2, hm3⟩ := hm
        subst hm1 hm2 hm3
        exact ⟨s.world, by rw [h]⟩
      cases r0 with
      | error e0 =>
          rw [replyLoop_backend_error a n s e0 w h] at htr
          simp only [List.append_cancel_left_eq] at htr
          exact hfirst [] (by simp [← htr]) (by rw [← htr] at hmem; exact hmem)
      | ok resp0 =>
          cases hc : resp0.Choices with
          | nil =>
              rw [replyLoop_no_choices a n s resp0 w h hc] at htr
              simp only [List.append_cancel_left_eq] at htr
              exact hfirst [] (by simp [← htr]) (by rw [← htr] at hmem; exact hmem)
          | cons choice0 rest0 =>
              by_cases ht : choice0.Message.ToolCalls = []
              · rw [replyLoop_final a n s resp0 w choice0 rest0 h hc ht] at htr
                simp only [List.append_cancel_left_eq] at htr
                exact hfirst [] (by simp [← htr]) (by rw [← htr] at hmem; exact hmem)
              · rw [replyLoop_tool_calls a n s resp0 w choice0 rest0 h hc ht] at htr
                obtain ⟨t, htt, hexec⟩ := toolRound_trace a.registry
                  { msgs := s.msgs, world := w,
                    trace := s.trace ++
                      [Event.backend s.msgs a.registry.Definitions (Except.ok resp0)] }
                  choice0.Message
                obtain ⟨new2, hnew2⟩ := replyLoop_trace_extends a n (toolRound a.registry
                  { msgs := s.msgs, world := w,
                    trace := s.trace ++
                      [Event.backend s.msgs a.registry.Definitions (Except.ok resp0)] }
                  choice0.Message)
                have hshape : new =
                    Event.backend s.msgs a.registry.Definitions (Except.ok resp0) ::
                      (t ++ new2) := by
                  have := htr.symm.trans hnew2
                  rw [htt] at this
                  simpa using this
                rw [hshape] at hmem
                rcases List.mem_cons.mp hmem with heq | hmem2
                · exact hfirst (t ++ new2) (by simp [hshape]) (by rw [heq]; simp)
                · rcases List.mem_append.mp hmem2 with h3 | h3
                  · have := hexec _ h3
                    simp [Event.isExecute] at this
                  · exact ih _ new2 hnew2 msgs tools r h3

theorem Reply_backend_results {W : Type} (a : Assistant W) (conv : Conversation) (w : W)
    (msgs : List ChatMsg) (tools : List ToolDef) (r : Except GoError Response)
    (hmem : Event.backend msgs tools r ∈ (Reply a conv w).trace) :
    ∃ w0, r = (a.cli w0 msgs tools).1 := by
  by_cases hlen : conv.Messages.length = 0
  · simp [Reply, hlen] at hmem
  · have hR : Reply a conv w =
        replyLoop a maxIterations { msgs := seedTranscript conv, world := w, trace := [] } := by
      simp [Reply, hlen]
    rw [hR] at hmem
    exact replyLoop_backend_results a maxIterations
      { msgs := seedTranscript conv, world := w, trace := [] } _ (by simp) msgs tools r hmem

/-- C2: on a non-empty conversation, if every backend call that `Reply` makes is answered
successfully with a first choice that carries at least one tool-call request, `Reply`
makes exactly 15 backend calls and returns the error "too many tool calls, unable to
generate reply" with an empty reply string; and whatever the backend and the tools do,
`Reply` makes at most 15 backend calls. -/
theorem Reply_fifteen_rounds {W : Type} (a : Assistant W) (conv : Conversation) (w : W) :
    (conv.Messages ≠ [] →
      (∀ (msgs : List ChatMsg) (tools : List ToolDef) (r : Except GoError Response),
        Event.backend msgs tools r ∈ (Reply a conv w).trace →
        ∃ resp choice rest, r = Except.ok resp ∧
          resp.Choices = choice :: rest ∧ choice.Message.ToolCalls ≠ []) →
      backendCalls (Reply a conv w).trace = 15 ∧
      (Reply a conv w).err =
        some (errorsNew "too many tool calls, unable to generate reply") ∧
      (Reply a conv w).reply = "") ∧
    backendCalls (Reply a conv w).trace ≤ 15 := by
  constructor
  · intro hne hAll
    have hlen : ¬ conv.Messages.length = 0 := by
      simpa [List.length_eq_zero] using hne
    have hR : Reply a conv w =
        replyLoop a maxIterations { msgs := seedTranscript conv, world := w, trace := [] } := by
      simp [Reply, hlen]
    rw [hR] at hAll ⊢
    exact replyLoop_tool_calls_until_ceiling a maxIterations
      { msgs := seedTranscript conv, world := w, trace := [] } _ (by simp) hAll
  · by_cases hlen : conv.Messages.length = 0
    · simp [Reply, hlen, backendCalls]
    · have := replyLoop_backendCalls_le a maxIterations
        { msgs := seedTranscript conv, world := w, trace := [] }
      simpa [Reply, hlen, backendCalls, maxIterations] using this

theorem Reply_fifteen_rounds_witness :
    helloConv.Messages ≠ [] ∧
    backendCalls (Reply loopingAssistant helloConv 0).trace = 15 ∧
    (Reply loopingAssistant helloConv 0).err =
      some (errorsNew "too many tool calls, unable to generate reply") ∧
    (Reply loopingAssistant helloConv 0).reply = "" :=
  ⟨by simp [helloConv],
   (Reply_fifteen_rounds loopingAssistant helloConv 0).1 (by simp [helloConv])
     (fun msgs tools r hmem =>
       (Reply_backend_results loopingAssistant helloConv 0 msgs tools r hmem).elim
         (fun _ hr => ⟨dateResponse, ⟨{ Content := "", ToolCalls := [dateCall] }⟩, [],
            hr, rfl, by simp⟩))⟩

/-! ## How the loop ends -/

theorem split_after_executes (t new pre post : List Event) (ev : Event)
    (hex : ∀ x ∈ t, Event.isExecute x = true) (hev : Event.isExecute ev = false)
    (h : t ++ new = pre ++ ev :: post) : ∃ pre2, new = pre2 ++ ev :: post := by
  rcases List.append_eq_append_iff.mp h with ⟨a2, _, h2⟩ | ⟨c2, h1, h2⟩
  · exact ⟨a2, h2⟩
  · cases c2 with
    | nil => exact ⟨[], by simpa using h2.symm⟩
    | cons x c3 =>
        simp only [List.cons_append, List.cons.injEq] at h2
        have hx := hex ev (by rw [h1, h2.1]; simp)
        rw [hev] at hx
        cases hx

theorem replyLoop_error_origin {W : Type} (a : Assistant W) :
    ∀ (n : Nat) (s : LoopState W) (e : GoError), (replyLoop a n s).err = some e →
      (∃ msgs tools, Event.backend msgs tools (Except.error e) ∈ (replyLoop a n s).trace) ∨
      e = errNoChoices ∨ e = errTooManyToolCalls := by
  intro n
  induction n with
  | zero =>
      intro s e he
      simp only [replyLoop_zero, Option.some.injEq] at he
      exact Or.inr (Or.inr he.symm)
  | succ n ih =>
      intro s e he
      rcases h : a.cli s.world s.msgs a.registry.Definitions with ⟨r, w⟩
      cases r with
      | error e2 =>
          rw [replyLoop_backend_error a n s e2 w h] at he ⊢
          simp only [Option.some.injEq] at he
          subst he
          exact Or.inl ⟨s.msgs, a.registry.Definitions, by simp⟩
      | ok resp =>
          cases hc : resp.Choices with
          | nil =>
              rw [replyLoop_no_choices a n s resp w h hc] at he
              simp only [Option.some.injEq] at he
              exact Or.inr (Or.inl he.symm)
          | cons choice rest =>
              by_cases ht : choice.Message.ToolCalls = []
              · rw [replyLoop_final a n s resp w choice rest h hc ht] at he
                cases he
              · rw [replyLoop_tool_calls a n s resp w choice rest h hc ht] at he ⊢
                exact ih _ e he

theorem replyLoop_stops {W : Type} (a : Assistant W) :
    ∀ (n : Nat) (s : LoopState W) (new pre post : List Event) (msgs : List ChatMsg)
      (tools : List ToolDef) (r : Except GoError Response),
      (replyLoop a n s).trace = s.trace ++ new →
      new = pre ++ Event.backend msgs tools r :: post →
      (∀ e, r = Except.error e →
        post = [] ∧ (replyLoop a n s).err = some e ∧ (replyLoop a n s).reply = "") ∧
      (∀ resp, r = Except.ok resp → resp.Choices = [] →
        post = [] ∧ (replyLoop a n s).err = some errNoChoices ∧
        (replyLoop a n s).reply = "") := by
  intro n
  induction n with
  | zero =>
      intro s new pre post msgs tools r htr hnew
      simp only [replyLoop_zero, self_eq_add_right, List.self_eq_append_right] at htr
      rw [htr] at hnew
      simp at hnew
  | succ n ih =>
      intro s new pre post msgs tools r htr hnew
      rcases h : a.cli s.world s.msgs a.registry.Definitions with ⟨r0, w⟩
      cases r0 with
      | error e0 =>
          rw [replyLoop_backend_error a n s e0 w h] at htr ⊢
          simp only [List.append_cancel_left_eq] at htr
          rw [← htr] at hnew
          rcases List.cons_eq_append_iff.mp hnew with ⟨hp, hq⟩ | ⟨p2, _, hq⟩
          · simp only [List.cons.injEq, Event.backend.injEq] at hq
            obtain ⟨⟨_, _, hr⟩, hpost⟩ := hq
            subst hr
            refine ⟨?_, ?_⟩
            · intro e he
              cases he
              exact ⟨hpost, rfl, rfl⟩
            · intro resp he
              cases he
          · simp at hq
      | ok resp0 =>
          cases hc : resp0.Choices with
          | nil =>
              rw [replyLoop_no_choices a n s resp0 w h hc] at htr ⊢
              simp only [List.append_cancel_left_eq] at htr
              rw [← htr] at hnew
              rcases List.cons_eq_append_iff.mp hnew with ⟨hp, hq⟩ | ⟨p2, _, hq⟩
              · simp only [List.cons.injEq, Event.backend.injEq] at hq
                obtain ⟨⟨_, _, hr⟩, hpost⟩ := hq
                subst hr
                refine ⟨?_, ?_⟩
                · intro e he
                  cases he
                · intro resp he _
                  exact ⟨hpost, rfl, rfl⟩
              · simp at hq
          | cons choice rest =>
              by_cases ht : choice.Message.ToolCalls = []
              · rw [replyLoop_final a n s resp0 w choice rest h hc ht] at htr ⊢
                simp only [List.append_cancel_left_eq] at htr
                rw [← htr] at hnew
                rcases List.cons_eq_append_iff.mp hnew with ⟨hp, hq⟩ | ⟨p2, _, hq⟩
                · simp only [List.cons.injEq, Event.backend.injEq] at hq
                  obtain ⟨⟨_, _, hr⟩, hpost⟩ := hq
                  subst hr
                  refine ⟨?_, ?_⟩
                  · intro e he
                    cases he
                  · intro resp he hemp
                    cases he
                    rw [hc] at hemp
                    cases hemp
                · simp at hq
              · rw [replyLoop_tool_calls a n s resp0 w choice rest h hc ht] at htr ⊢
                obtain ⟨t, htt, hex⟩ := toolRound_trace a.registry
                  { msgs := s.msgs, world := w,
                    trace := s.trace ++
                      [Event.backend s.msgs a.registry.Definitions (Except.ok resp0)] }
                  choice.Message
                obtain ⟨new2, hnew2⟩ := replyLoop_trace_extends a n (toolRound a.registry
                  { msgs := s.msgs, world := w,
                    trace := s.trace ++
                      [Event.backend s.msgs a.registry.Definitions (Except.ok resp0)] }
                  choice.Message)
                have hshape : new =
                    Event.backend s.msgs a.registry.Definitions (Except.ok resp0) ::
                      (t ++ new2) := by
                  have := htr.symm.trans hnew2
                  rw [htt] at this
                  simpa using this
                rw [hshape] at hnew
                rcases List.cons_eq_append_iff.mp hnew with ⟨hp, hq⟩ | ⟨p2, _, hq⟩
                · simp only [List.cons.injEq, Event.backend.injEq] at hq
                  obtain ⟨⟨_, _, hr⟩, _⟩ := hq
                  subst hr
                  refine ⟨?_, ?_⟩
                  · intro e he
                    cases he
                  · intro resp he hemp
                    cases he
                    rw [hc] at hemp
                    cases hemp
                · obtain ⟨p3, hp3⟩ := split_after_executes t new2 p2 post
                    (Event.backend msgs tools r) hex rfl hq
                  exact ih _ new2 p3 post msgs tools r hnew2 hp3

theorem replyLoop_succeeds {W : Type} (a : Assistant W) :
    ∀ (n : Nat) (s : LoopState W) (new : List Event),
      (replyLoop a n s).trace = s.trace ++ new →
      (∀ msgs tools r, Event.backend msgs tools r ∈ new →
        ∃ resp choice rest, r = Except.ok resp ∧ resp.Choices = choice :: rest) →
      (∃ msgs tools resp choice rest, Event.backend msgs tools (Except.ok resp) ∈ new ∧
        resp.Choices = choice :: rest ∧ choice.Message.ToolCalls = []) →
      (replyLoop a n s).err = none := by
  intro n
  induction n with
  | zero =>
      intro s new htr _ hex
      simp only [replyLoop_zero, self_eq_add_right, List.self_eq_append_right] at htr
      obtain ⟨msgs, tools, resp, choice, rest, hmem, _, _⟩ := hex
      rw [htr] at hmem
      cases hmem
  | succ n ih =>
      intro s new htr hall hex
      rcases h : a.cli s.world s.msgs a.registry.Definitions with ⟨r0, w⟩
      cases r0 with
      | error e0 =>
          rw [replyLoop_backend_error a n s e0 w h] at htr
          simp only [List.append_cancel_left_eq] at htr
          obtain ⟨resp, choice, rest, hr, _⟩ := hall s.msgs a.registry.Definitions
            (Except.error e0) (by rw [← htr]; simp)
          cases hr
      | ok resp0 =>
          cases hc : resp0.Choices with
          | nil =>
              rw [replyLoop_no_choices a n s resp0 w h hc] at htr
              simp only [List.append_cancel_left_eq] at htr
              obtain ⟨resp, choice, rest, hr, hch⟩ := hall s.msgs a.registry.Definitions
                (Except.ok resp0) (by rw [← htr]; simp)
              cases hr
              rw [hc] at hch
              cases hch
          | cons choice rest =>
              by_cases ht : choice.Message.ToolCalls = []
              · rw [replyLoop_final a n s resp0 w choice rest h hc ht]
              · rw [replyLoop_tool_calls a n s resp0 w choice rest h hc ht] at htr ⊢
                obtain ⟨t, htt, hexec⟩ := toolRound_trace a.registry
                  { msgs := s.msgs, world := w,
                    trace := s.trace ++
                      [Event.backend s.msgs a.registry.Definitions (Except.ok resp0)] }
                  choice.Message
                obtain ⟨new2, hnew2⟩ := replyLoop_trace_extends a n (toolRound a.registry
                  { msgs := s.msgs, world := w,
                    trace := s.trace ++
                      [Event.backend s.msgs a.registry.Definitions (Except.ok resp0)] }
                  choice.Message)
                have hshape : new =
                    Event.backend s.msgs a.registry.Definitions (Except.ok resp0) ::
                      (t ++ new2) := by
                  have := htr.symm.trans hnew2
                  rw [htt] at this
                  simpa using this
                apply ih _ new2 hnew2
                · intro msgs tools r hmem
                  exact hall msgs tools r (by rw [hshape]; simp [hmem])
                · obtain ⟨msgs, tools, resp, choice2, rest2, hmem, hch, hnt⟩ := hex
                  rw [hshape] at hmem
                  rcases List.mem_cons.mp hmem with heq | hmem2
                  · simp only [Event.backend.injEq, Except.ok.injEq] at heq
                    obtain ⟨_, _, hr⟩ := heq
                    subst hr
                    rw [hc] at hch
                    simp only [List.cons.injEq] at hch
                    rw [← hch.1] at hnt
                    exact absurd hnt ht
                  · rcases List.mem_append.mp hmem2 with h3 | h3
                    · have := hexec _ h3
                      simp [Event.isExecute] at this
                    · exact ⟨msgs, tools, resp, choice2, rest2, h3, hch, hnt⟩

theorem foldl_seedStep (messages : List Message) :
    ∀ acc : List ChatMsg, messages.foldl seedStep acc =
      acc ++ (messages.filter
          (fun m => decide (m.Role = Role.RoleUser ∨ m.Role = Role.RoleAssistant))).map
        (fun m => if m.Role = Role.RoleUser then ChatMsg.user m.Content
          else ChatMsg.assistant m.Content []) := by
  induction messages with
  | nil => intro acc; simp
  | cons m rest ih =>
      intro acc
      rw [List.foldl_cons, ih]
      rcases m with ⟨role, content⟩
      cases role <;> simp [seedStep, UserMessage, AssistantMessage]

theorem toolRound_split {W : Type} (registry : Registry W) (s1 : LoopState W)
    (message : ChoiceMessage) (before after : List ToolCall) (call : ToolCall)
    (hcalls : message.ToolCalls = before ++ call :: after) :
    toolRound registry s1 message =
      after.foldl (dispatch registry)
        (dispatch registry (reachedState registry s1 message before) call) := by
  simp [toolRound, reachedState, hcalls, List.foldl_append]

theorem round_continues {W : Type} (a : Assistant W) (n : Nat) (s : LoopState W)
    (resp : Response) (w : W) (choice : Choice) (rest : List Choice)
    (before after : List ToolCall) (call : ToolCall) (toolMsg : ChatMsg)
    (h : a.cli s.world s.msgs a.registry.Definitions = (Except.ok resp, w))
    (hc : resp.Choices = choice :: rest)
    (hcalls : choice.Message.ToolCalls = before ++ call :: after)
    (hmsg : (dispatch a.registry
        (reachedState a.registry (answered a s resp w) choice.Message before) call).msgs =
      (reachedState a.registry (answered a s resp w) choice.Message before).msgs ++ [toolMsg]) :
    toolRound a.registry (answered a s resp w) choice.Message =
      after.foldl (dispatch a.registry)
        (dispatch a.registry
          (reachedState a.registry (answered a s resp w) choice.Message before) call) ∧
    toolMsg ∈ (toolRound a.registry (answered a s resp w) choice.Message).msgs ∧
    replyLoop a (n + 1) s =
      replyLoop a n (toolRound a.registry (answered a s resp w) choice.Message) ∧
    (0 < n → ∃ tail, (replyLoop a (n + 1) s).trace =
      (toolRound a.registry (answered a s resp w) choice.Message).trace ++
        Event.backend (toolRound a.registry (answered a s resp w) choice.Message).msgs
          a.registry.Definitions
          (a.cli (toolRound a.registry (answered a s resp w) choice.Message).world
            (toolRound a.registry (answered a s resp w) choice.Message).msgs
            a.registry.Definitions).1 :: tail) := by
  have hsplit := toolRound_split a.registry (answered a s resp w) choice.Message
    before after call hcalls
  have hne : choice.Message.ToolCalls ≠ [] := by simp [hcalls]
  have hloop : replyLoop a (n + 1) s =
      replyLoop a n (toolRound a.registry (answered a s resp w) choice.Message) :=
    replyLoop_tool_calls a n s resp w choice rest h hc hne
  refine ⟨hsplit, ?_, hloop, ?_⟩
  · obtain ⟨tm, htm, _⟩ := foldl_dispatch_msgs a.registry after
      (dispatch a.registry
        (reachedState a.registry (answered a s resp w) choice.Message before) call)
    rw [hsplit, htm, hmsg]
    simp
  · intro hn
    obtain ⟨m, rfl⟩ : ∃ m, n = m + 1 := ⟨n - 1, by omega⟩
    rw [hloop]
    exact replyLoop_first_call a m _

/-- C3: when a response's first choice carries a request `call` (after the requests
`before`, followed by the requests `after`) whose function name is not in the registry,
dispatching it appends exactly one Tool-role message "unknown tool: " followed by the
name, tied to the request's call id, and touches neither the world nor the trace (no tool
is executed); the requests `after` are then dispatched as usual; the message stays in the
working transcript; and the iteration does not return: the loop goes on with the next
iteration, which (when one is left) starts with a backend call on that transcript. -/
theorem Reply_unknown_tool {W : Type} (a : Assistant W) (n : Nat) (s : LoopState W)
    (resp : Response) (w : W) (choice : Choice) (rest : List Choice)
    (before after : List ToolCall) (call : ToolCall)
    (h : a.cli s.world s.msgs a.registry.Definitions = (Except.ok resp, w))
    (hc : resp.Choices = choice :: rest)
    (hcalls : choice.Message.ToolCalls = before ++ call :: after)
    (hunknown : a.registry.Get call.Name = none) :
    dispatch a.registry (reachedState a.registry (answered a s resp w) choice.Message before)
        call =
      { msgs := (reachedState a.registry (answered a s resp w) choice.Message before).msgs ++
          [ChatMsg.tool ("unknown tool: " ++ call.Name) call.ID]
        world := (reachedState a.registry (answered a s resp w) choice.Message before).world
        trace := (reachedState a.registry (answered a s resp w) choice.Message before).trace } ∧
    toolRound a.registry (answered a s resp w) choice.Message =
      after.foldl (dispatch a.registry)
        (dispatch a.registry
          (reachedState a.registry (answered a s resp w) choice.Message before) call) ∧
    ChatMsg.tool ("unknown tool: " ++ call.Name) call.ID ∈
      (toolRound a.registry (answered a s resp w) choice.Message).msgs ∧
    replyLoop a (n + 1) s =
      replyLoop a n (toolRound a.registry (answered a s resp w) choice.Message) ∧
    (0 < n → ∃ tail, (replyLoop a (n + 1) s).trace =
      (toolRound a.registry (answered a s resp w) choice.Message).trace ++
        Event.backend (toolRound a.registry (answered a s resp w) choice.Message).msgs
          a.registry.Definitions
          (a.cli (toolRound a.registry (answered a s resp w) choice.Message).world
            (toolRound a.registry (answered a s resp w) choice.Message).msgs
            a.registry.Definitions).1 :: tail) := by
  have hd : dispatch a.registry
      (reachedState a.registry (answered a s resp w) choice.Message before) call =
      { msgs := (reachedState a.registry (answered a s resp w) choice.Message before).msgs ++
          [ChatMsg.tool ("unknown tool: " ++ call.Name) call.ID]
        world := (reachedState a.registry (answered a s resp w) choice.Message before).world
        trace := (reachedState a.registry (answered a s resp w) choice.Message before).trace } := by
    simp [dispatch, hunknown, ToolMessage]
  exact ⟨hd, round_continues a n s resp w choice rest before after call _ h hc hcalls
    (by rw [hd])⟩

theorem Reply_unknown_tool_witness :
    mixedAssistant.cli startState.world startState.msgs mixedAssistant.registry.Definitions =
      (Except.ok mixedResponse, 1) ∧
    mixedMessage.ToolCalls = [dateCall] ++ ghostCall :: [failCall] ∧
    ChatMsg.tool "unknown tool: ghost" "call_2" ∈
      (toolRound mixedAssistant.registry (answered mixedAssistant startState mixedResponse 1)
        mixedMessage).msgs ∧
    replyLoop mixedAssistant (14 + 1) startState =
      replyLoop mixedAssistant 14
        (toolRound mixedAssistant.registry (answered mixedAssistant startState mixedResponse 1)
          mixedMessage) :=
  have h := Reply_unknown_tool mixedAssistant 14 startState mixedResponse 1 ⟨mixedMessage⟩ []
    [dateCall] [failCall] ghostCall rfl rfl rfl (by rfl)
  ⟨rfl, rfl, h.2.2.1, h.2.2.2.1⟩

/-- C4: when a response's first choice carries a request `call` (after the requests
`before`, followed by the requests `after`) naming a registered tool whose `Execute`
returns an error `e`, dispatching it appends exactly one Tool-role message "tool execution
failed: " followed by the message of `e`, tied to the request's call id; the requests
`after` are then dispatched as usual; the message stays in the working transcript; and
the iteration does not return: the loop goes on with the next iteration, which (when one
is left) starts with a backend call on that transcript. -/
theorem Reply_tool_execution_failed {W : Type} (a : Assistant W) (n : Nat) (s : LoopState W)
    (resp : Response) (w : W) (choice : Choice) (rest : List Choice)
    (before after : List ToolCall) (call : ToolCall) (tool : Tool W) (e : GoError) (w2 : W)
    (h : a.cli s.world s.msgs a.registry.Definitions = (Except.ok resp, w))
    (hc : resp.Choices = choice :: rest)
    (hcalls : choice.Message.ToolCalls = before ++ call :: after)
    (hknown : a.registry.Get call.Name = some tool)
    (hfail : tool.Execute
        (reachedState a.registry (answered a s resp w) choice.Message before).world
        call.Arguments = (Except.error e, w2)) :
    dispatch a.registry (reachedState a.registry (answered a s resp w) choice.Message before)
        call =
      { msgs := (reachedState a.registry (answered a s resp w) choice.Message before).msgs ++
          [ChatMsg.tool ("tool execution failed: " ++ e.msg) call.ID]
        world := w2
        trace := (reachedState a.registry (answered a s resp w) choice.Message before).trace ++
          [Event.execute call.Name call.Arguments (Except.error e)] } ∧
    toolRound a.registry (answered a s resp w) choice.Message =
      after.foldl (dispatch a.registry)
        (dispatch a.registry
          (reachedState a.registry (answered a s resp w) choice.Message before) call) ∧
    ChatMsg.tool ("tool execution failed: " ++ e.msg) call.ID ∈
      (toolRound a.registry (answered a s resp w) choice.Message).msgs ∧
    replyLoop a (n + 1) s =
      replyLoop a n (toolRound a.registry (answered a s resp w) choice.Message) ∧
    (0 < n → ∃ tail, (replyLoop a (n + 1) s).trace =
      (toolRound a.registry (answered a s resp w) choice.Message).trace ++
        Event.backend (toolRound a.registry (answered a s resp w) choice.Message).msgs
          a.registry.Definitions
          (a.cli (toolRound a.registry (answered a s resp w) choice.Message).world
            (toolRound a.registry (answered a s resp w) choice.Message).msgs
            a.registry.Definitions).1 :: tail) := by
  have hd : dispatch a.registry
      (reachedState a.registry (answered a s resp w) choice.Message before) call =
      { msgs := (reachedState a.registry (answered a s resp w) choice.Message before).msgs ++
          [ChatMsg.tool ("tool execution failed: " ++ e.msg) call.ID]
        world := w2
        trace := (reachedState a.registry (answered a s resp w) choice.Message before).trace ++
          [Event.execute call.Name call.Arguments (Except.error e)] } := by
    simp [dispatch, hknown, hfail, ToolMessage]
  exact ⟨hd, round_continues a n s resp w choice rest before after call _ h hc hcalls
    (by rw [hd])⟩

theorem Reply_tool_execution_failed_witness :
    mixedAssistant.cli startState.world startState.msgs mixedAssistant.registry.Definitions =
      (Except.ok mixedResponse, 1) ∧
    mixedMessage.ToolCalls = [dateCall, ghostCall] ++ failCall :: [] ∧
    failingTool.Execute
      (reachedState mixedAssistant.registry (answered mixedAssistant startState mixedResponse 1)
        mixedMessage [dateCall, ghostCall]).world failCall.Arguments =
      (Except.error (errorsNew "boom"), 3) ∧
    ChatMsg.tool "tool execution failed: boom" "call_3" ∈
      (toolRound mixedAssistant.registry (answered mixedAssistant startState mixedResponse 1)
        mixedMessage).msgs ∧
    replyLoop mixedAssistant (14 + 1) startState =
      replyLoop mixedAssistant 14
        (toolRound mixedAssistant.registry (answered mixedAssistant startState mixedResponse 1)
          mixedMessage) :=
  have h := Reply_tool_execution_failed mixedAssistant 14 startState mixedResponse 1
    ⟨mixedMessage⟩ [] [dateCall, ghostCall] [] failCall failingTool (errorsNew "boom") 3
    rfl rfl rfl (by rfl) (by rfl)
  ⟨rfl, rfl, by rfl, h.2.2.1, h.2.2.2.1⟩

/-- C5: tool-level failures never become `Reply`-level errors.  On a non-empty
conversation, whatever the registry holds and whatever the tools do, an error returned by
`Reply` is the error of one of its backend calls, or "no choices returned by OpenAI", or
"too many tool calls, unable to generate reply"; and when every backend call made
succeeded with a non-empty choice list and one of them (all are among the first 15
rounds) carried no tool calls in its first choice, `Reply` returns no error. -/
theorem Reply_error_taxonomy {W : Type} (a : Assistant W) (conv : Conversation) (w : W)
    (hne : conv.Messages ≠ []) :
    (∀ e, (Reply a conv w).err = some e →
      (∃ msgs tools, Event.backend msgs tools (Except.error e) ∈ (Reply a conv w).trace) ∨
      e = errorsNew "no choices returned by OpenAI" ∨
      e = errorsNew "too many tool calls, unable to generate reply") ∧
    ((∀ msgs tools r, Event.backend msgs tools r ∈ (Reply a conv w).trace →
        ∃ resp choice rest, r = Except.ok resp ∧ resp.Choices = choice :: rest) →
      (∃ msgs tools resp choice rest,
        Event.backend msgs tools (Except.ok resp) ∈ (Reply a conv w).trace ∧
        resp.Choices = choice :: rest ∧ choice.Message.ToolCalls = []) →
      (Reply a conv w).err = none) ∧
    backendCalls (Reply a conv w).trace ≤ 15 := by
  have hlen : ¬ conv.Messages.length = 0 := by
    simpa [List.length_eq_zero] using hne
  have hR : Reply a conv w =
      replyLoop a maxIterations { msgs := seedTranscript conv, world := w, trace := [] } := by
    simp [Reply, hlen]
  rw [hR]
  refine ⟨?_, ?_, ?_⟩
  · intro e he
    exact replyLoop_error_origin a _ _ e he
  · intro hall hex
    exact replyLoop_succeeds a _ _ _ (by simp) hall hex
  · have := replyLoop_backendCalls_le a maxIterations
      { msgs := seedTranscript conv, world := w, trace := [] }
    simpa [backendCalls, maxIterations] using this

theorem Reply_error_taxonomy_witness :
    helloConv.Messages ≠ [] ∧
    (Reply mixedAssistant helloConv 0).err = none ∧
    ChatMsg.tool "unknown tool: ghost" "call_2" ∈ (Reply mixedAssistant helloConv 0).msgs ∧
    ChatMsg.tool "tool execution failed: boom" "call_3" ∈
      (Reply mixedAssistant helloConv 0).msgs :=
  ⟨by simp [helloConv],
   (Reply_error_taxonomy mixedAssistant helloConv 0 (by simp [helloConv])).2.1
     (by
       intro msgs tools r hmem
       have htr : (Reply mixedAssistant helloConv 0).trace =
           [Event.backend (seedTranscript helloConv) stubRegistry.Definitions
              (Except.ok mixedResponse),
            Event.execute "get_today_date" "" (Except.ok "1"),
            Event.execute "get_weather" "" (Except.error (errorsNew "boom")),
            Event.backend (Reply mixedAssistant helloConv 0).msgs stubRegistry.Definitions
              (Except.ok finalResponse)] := rfl
       rw [htr] at hmem
       simp only [List.mem_cons, Event.backend.injEq, List.mem_singleton, false_or,
         List.not_mem_nil, or_false] at hmem
       rcases hmem with ⟨_, _, hr⟩ | hno | hno | ⟨_, _, hr⟩
       · exact ⟨_, _, _, hr, rfl⟩
       · cases hno
       · cases hno
       · exact ⟨_, _, _, hr, rfl⟩)
     ⟨(Reply mixedAssistant helloConv 0).msgs, stubRegistry.Definitions, finalResponse,
       ⟨{ Content := "Today is X", ToolCalls := [] }⟩, [], by
         have htr : (Reply mixedAssistant helloConv 0).trace =
           [Event.backend (seedTranscript helloConv) stubRegistry.Definitions
              (Except.ok mixedResponse),
            Event.execute "get_today_date" "" (Except.ok "1"),
            Event.execute "get_weather" "" (Except.error (errorsNew "boom")),
            Event.backend (Reply mixedAssistant helloConv 0).msgs stubRegistry.Definitions
              (Except.ok finalResponse)] := rfl
         rw [htr]
         simp, rfl, rfl⟩,
   by decide, by decide⟩

/-- C6: two-round round trip.  On a non-empty conversation, when the first backend
response requests a single call to the registered tool get_today_date and the second
response carries no tool calls and content `T`, `Reply` returns `T` without error after
exactly two backend calls (and one `Execute` in between), and the transcript sent on the
second call is the transcript sent on the first call followed by the assistant's
tool-call message and one Tool-role message whose content is the result of the date
tool's `Execute` and whose call id is the id of the request. -/
theorem Reply_date_round_trip {W : Type} (a : Assistant W) (conv : Conversation) (w : W)
    (clock : W → String × W) (resp1 resp2 : Response) (w1 wTool w2 : W)
    (choice1 choice2 : Choice) (rest1 rest2 : List Choice) (call : ToolCall)
    (result T : String)
    (hne : conv.Messages ≠ [])
    (hreg : a.registry.Get "get_today_date" = some (DateTool clock))
    (h1 : a.cli w (seedTranscript conv) a.registry.Definitions = (Except.ok resp1, w1))
    (hc1 : resp1.Choices = choice1 :: rest1)
    (hcalls : choice1.Message.ToolCalls = [call])
    (hname : call.Name = "get_today_date")
    (hexec : (DateTool clock).Execute w1 call.Arguments = (Except.ok result, wTool))
    (h2 : a.cli wTool
        (seedTranscript conv ++ [choice1.Message.ToParam, ChatMsg.tool result call.ID])
        a.registry.Definitions = (Except.ok resp2, w2))
    (hc2 : resp2.Choices = choice2 :: rest2)
    (hfinal : choice2.Message.ToolCalls = [])
    (hT : choice2.Message.Content = T) :
    (Reply a conv w).reply = T ∧
    (Reply a conv w).err = none ∧
    backendCalls (Reply a conv w).trace = 2 ∧
    (Reply a conv w).trace =
      [Event.backend (seedTranscript conv) a.registry.Definitions (Except.ok resp1),
       Event.execute "get_today_date" call.Arguments (Except.ok result),
       Event.backend
         (seedTranscript conv ++ [choice1.Message.ToParam, ChatMsg.tool result call.ID])
         a.registry.Definitions (Except.ok resp2)] := by
  have hlen : ¬ conv.Messages.length = 0 := by
    simpa [List.length_eq_zero] using hne
  have hR : Reply a conv w =
      replyLoop a maxIterations { msgs := seedTranscript conv, world := w, trace := [] } := by
    simp [Reply, hlen]
  have hne1 : choice1.Message.ToolCalls ≠ [] := by simp [hcalls]
  have hget : a.registry.Get call.Name = some (DateTool clock) := by rw [hname]; exact hreg
  have hround : toolRound a.registry
      { msgs := seedTranscript conv, world := w1,
        trace := [] ++
          [Event.backend (seedTranscript conv) a.registry.Definitions (Except.ok resp1)] }
      choice1.Message =
      { msgs := seedTranscript conv ++ [choice1.Message.ToParam, ChatMsg.tool result call.ID]
        world := wTool
        trace :=
          [Event.backend (seedTranscript conv) a.registry.Definitions (Except.ok resp1),
           Event.execute "get_today_date" call.Arguments (Except.ok result)] } := by
    simp [toolRound, hcalls, dispatch, hname, hreg, hexec, ToolMessage]
  have hstep1 := replyLoop_tool_calls a 14
    { msgs := seedTranscript conv, world := w, trace := [] } resp1 w1 choice1 rest1 h1 hc1 hne1
  have hstep2 := replyLoop_final a 13
    { msgs := seedTranscript conv ++ [choice1.Message.ToParam, ChatMsg.tool result call.ID]
      world := wTool
      trace :=
        [Event.backend (seedTranscript conv) a.registry.Definitions (Except.ok resp1),
         Event.execute "get_today_date" call.Arguments (Except.ok result)] }
    resp2 w2 choice2 rest2 h2 hc2 hfinal
  have hall : Reply a conv w =
      { reply := choice2.Message.Content, err := none,
        msgs := seedTranscript conv ++ [choice1.Message.ToParam, ChatMsg.tool result call.ID],
        world := w2,
        trace :=
          [Event.backend (seedTranscript conv) a.registry.Definitions (Except.ok resp1),
           Event.execute "get_today_date" call.Arguments (Except.ok result)] ++
          [Event.backend
            (seedTranscript conv ++ [choice1.Message.ToParam, ChatMsg.tool result call.ID])
            a.registry.Definitions (Except.ok resp2)] } := by
    rw [hR]
    show replyLoop a (14 + 1) _ = _
    rw [hstep1, hround]
    exact hstep2
  rw [hall]
  simp [hT, backendCalls]

theorem Reply_date_round_trip_witness :
    helloConv.Messages ≠ [] ∧
    (Reply roundTripAssistant helloConv 0).reply = "Today is X" ∧
    (Reply roundTripAssistant helloConv 0).err = none ∧
    backendCalls (Reply roundTripAssistant helloConv 0).trace = 2 ∧
    (Reply roundTripAssistant helloConv 0).trace =
      [Event.backend (seedTranscript helloConv) stubRegistry.Definitions
         (Except.ok dateResponse),
       Event.execute "get_today_date" "" (Except.ok "1"),
       Event.backend
         (seedTranscript helloConv ++
           [ChatMsg.assistant "" [dateCall], ChatMsg.tool "1" "call_1"])
         stubRegistry.Definitions (Except.ok finalResponse)] :=
  ⟨by simp [helloConv],
   Reply_date_round_trip roundTripAssistant helloConv 0 stubClock dateResponse finalResponse
     1 2 3 ⟨{ Content := "", ToolCalls := [dateCall] }⟩
     ⟨{ Content := "Today is X", ToolCalls := [] }⟩ [] [] dateCall "1" "Today is X"
     (by simp [helloConv]) (by rfl) rfl rfl rfl rfl (by rfl) rfl rfl rfl rfl⟩

/-- C7: when a backend response's first choice carries n >= 1 tool-call requests, the
loop goes on with a working transcript that is the earlier transcript, unchanged, followed
by exactly n+1 messages: the assistant's tool-call message, then n Tool-role messages
whose call ids are the ids of the requests in the order of the response; and where the
k-th request names a registered tool whose `Execute` succeeds, the k-th Tool message
carries the result text unchanged. -/
theorem Reply_tool_round_transcript {W : Type} (a : Assistant W) (n : Nat) (s : LoopState W)
    (resp : Response) (w : W) (choice : Choice) (rest : List Choice)
    (h : a.cli s.world s.msgs a.registry.Definitions = (Except.ok resp, w))
    (hc : resp.Choices = choice :: rest)
    (hcalls : 1 ≤ choice.Message.ToolCalls.length) :
    ∃ toolMsgs : List ChatMsg,
      replyLoop a (n + 1) s =
        replyLoop a n (toolRound a.registry (answered a s resp w) choice.Message) ∧
      (toolRound a.registry (answered a s resp w) choice.Message).msgs =
        s.msgs ++ choice.Message.ToParam :: toolMsgs ∧
      toolMsgs.length = choice.Message.ToolCalls.length ∧
      (toolRound a.registry (answered a s resp w) choice.Message).msgs.length =
        s.msgs.length + (choice.Message.ToolCalls.length + 1) ∧
      toolMsgs.map ChatMsg.toolCallID? =
        choice.Message.ToolCalls.map (fun c => some c.ID) ∧
      ∀ (k : Nat) (call : ToolCall) (tool : Tool W) (result : String) (w2 : W),
        choice.Message.ToolCalls[k]? = some call →
        a.registry.Get call.Name = some tool →
        tool.Execute
            (reachedState a.registry (answered a s resp w) choice.Message
              (choice.Message.ToolCalls.take k)).world
            call.Arguments = (Except.ok result, w2) →
        toolMsgs[k]? = some (ChatMsg.tool result call.ID) := by
  have hne : choice.Message.ToolCalls ≠ [] := by
    intro h0
    rw [h0] at hcalls
    simp at hcalls
  obtain ⟨tm, h1, h2, h3⟩ := foldl_dispatch_msgs a.registry choice.Message.ToolCalls
    { answered a s resp w with
      msgs := (answered a s resp w).msgs ++ [choice.Message.ToParam] }
  have hlen : tm.length = choice.Message.ToolCalls.length := by
    have := congrArg List.length h2
    simpa using this
  have hmsgs : (toolRound a.registry (answered a s resp w) choice.Message).msgs =
      s.msgs ++ choice.Message.ToParam :: tm := by
    unfold toolRound
    rw [h1]
    simp [answered]
  refine ⟨tm, replyLoop_tool_calls a n s resp w choice rest h hc hne, hmsgs, hlen, ?_, h2, ?_⟩
  · rw [hmsgs]
    simp [hlen]
  · intro k call tool result w2 hk hg hx
    exact h3 k call tool result w2 hk hg hx

theorem Reply_tool_round_transcript_witness :
    1 ≤ mixedMessage.ToolCalls.length ∧
    (toolRound mixedAssistant.registry (answered mixedAssistant startState mixedResponse 1)
        mixedMessage).msgs =
      startState.msgs ++
        [ChatMsg.assistant "" [dateCall, ghostCall, failCall],
         ChatMsg.tool "1" "call_1",
         ChatMsg.tool "unknown tool: ghost" "call_2",
         ChatMsg.tool "tool execution failed: boom" "call_3"] ∧
    ∃ toolMsgs : List ChatMsg,
      (toolRound mixedAssistant.registry (answered mixedAssistant startState mixedResponse 1)
          mixedMessage).msgs = startState.msgs ++ mixedMessage.ToParam :: toolMsgs ∧
      toolMsgs.length = 3 ∧
      toolMsgs.map ChatMsg.toolCallID? = [some "call_1", some "call_2", some "call_3"] :=
  ⟨by decide, by decide,
   (Reply_tool_round_transcript mixedAssistant 14 startState mixedResponse 1 ⟨mixedMessage⟩ []
      rfl rfl (by decide)).elim
     (fun toolMsgs hw => ⟨toolMsgs, hw.2.1, hw.2.2.1, hw.2.2.2.2.1⟩)⟩

/-- C8: no retry.  If a backend call made by `Reply` returned an error `e` (the call is
an entry of the trace, on a round between 1 and 15), then nothing follows it in the trace
(no further backend call, no further `Execute`), and `Reply` returns exactly `e` with an
empty reply string. -/
theorem Reply_backend_error_aborts {W : Type} (a : Assistant W) (conv : Conversation) (w : W)
    (pre post : List Event) (msgs : List ChatMsg) (tools : List ToolDef) (e : GoError)
    (htrace : (Reply a conv w).trace =
      pre ++ Event.backend msgs tools (Except.error e) :: post) :
    post = [] ∧ (Reply a conv w).err = some e ∧ (Reply a conv w).reply = "" ∧
    1 ≤ backendCalls (pre ++ [Event.backend msgs tools (Except.error e)]) ∧
    backendCalls (pre ++ [Event.backend msgs tools (Except.error e)]) ≤ 15 := by
  have hbound : backendCalls (Reply a conv w).trace ≤ 15 := by
    by_cases hlen : conv.Messages.length = 0
    · simp [Reply, hlen, backendCalls]
    · have := replyLoop_backendCalls_le a maxIterations
        { msgs := seedTranscript conv, world := w, trace := [] }
      simpa [Reply, hlen, backendCalls, maxIterations] using this
  have hcount : 1 ≤ backendCalls (pre ++ [Event.backend msgs tools (Except.error e)]) ∧
      backendCalls (pre ++ [Event.backend msgs tools (Except.error e)]) ≤ 15 := by
    rw [htrace] at hbound
    simp only [backendCalls_append, backendCalls] at hbound ⊢
    omega
  by_cases hlen : conv.Messages.length = 0
  · simp [Reply, hlen] at htrace
  · have hR : Reply a conv w =
        replyLoop a maxIterations { msgs := seedTranscript conv, world := w, trace := [] } := by
      simp [Reply, hlen]
    rw [hR] at htrace ⊢
    have := (replyLoop_stops a maxIterations
      { msgs := seedTranscript conv, world := w, trace := [] }
      (pre ++ Event.backend msgs tools (Except.error e) :: post) pre post msgs tools
      (Except.error e) (by simpa using htrace) rfl).1 e rfl
    exact ⟨this.1, this.2.1, this.2.2, hcount⟩

theorem Reply_backend_error_aborts_witness :
    (Reply flakyAssistant helloConv 0).trace =
      [Event.backend (seedTranscript helloConv) stubRegistry.Definitions
         (Except.ok dateResponse),
       Event.execute "get_today_date" "" (Except.ok "1")] ++
      Event.backend
        (seedTranscript helloConv ++
          [ChatMsg.assistant "" [dateCall], ChatMsg.tool "1" "call_1"])
        stubRegistry.Definitions (Except.error (errorsNew "rate limited")) :: [] ∧
    (Reply flakyAssistant helloConv 0).err = some (errorsNew "rate limited") ∧
    (Reply flakyAssistant helloConv 0).reply = "" :=
  have h := Reply_backend_error_aborts flakyAssistant helloConv 0
    [Event.backend (seedTranscript helloConv) stubRegistry.Definitions
       (Except.ok dateResponse),
     Event.execute "get_today_date" "" (Except.ok "1")] []
    (seedTranscript helloConv ++ [ChatMsg.assistant "" [dateCall], ChatMsg.tool "1" "call_1"])
    stubRegistry.Definitions (errorsNew "rate limited") rfl
  ⟨rfl, h.2.1, h.2.2.1⟩

/-- C9: if a backend call made by `Reply` succeeded with an empty choice list, then
nothing follows it in the trace (no further backend or tool call) and `Reply` returns the
error "no choices returned by OpenAI" with an empty reply string; that error differs from
the empty-conversation error and from the too-many-tool-calls error. -/
theorem Reply_no_choices {W : Type} (a : Assistant W) (conv : Conversation) (w : W)
    (pre post : List Event) (msgs : List ChatMsg) (tools : List ToolDef) (resp : Response)
    (htrace : (Reply a conv w).trace =
      pre ++ Event.backend msgs tools (Except.ok resp) :: post)
    (hempty : resp.Choices = []) :
    post = [] ∧
    (Reply a conv w).err = some (errorsNew "no choices returned by OpenAI") ∧
    (Reply a conv w).reply = "" ∧
    errorsNew "no choices returned by OpenAI" ≠ errNoMessages ∧
    errorsNew "no choices returned by OpenAI" ≠ errTooManyToolCalls := by
  by_cases hlen : conv.Messages.length = 0
  · simp [Reply, hlen] at htrace
  · have hR : Reply a conv w =
        replyLoop a maxIterations { msgs := seedTranscript conv, world := w, trace := [] } := by
      simp [Reply, hlen]
    rw [hR] at htrace ⊢
    have := (replyLoop_stops a maxIterations
      { msgs := seedTranscript conv, world := w, trace := [] }
      (pre ++ Event.backend msgs tools (Except.ok resp) :: post) pre post msgs tools
      (Except.ok resp) (by simpa using htrace) rfl).2 resp rfl hempty
    exact ⟨this.1, this.2.1, this.2.2, by decide, by decide⟩

theorem Reply_no_choices_witness :
    (Reply choicelessAssistant helloConv 0).trace =
      [Event.backend (seedTranscript helloConv) stubRegistry.Definitions
         (Except.ok dateResponse),
       Event.execute "get_today_date" "" (Except.ok "1")] ++
      Event.backend
        (seedTranscript helloConv ++
          [ChatMsg.assistant "" [dateCall], ChatMsg.tool "1" "call_1"])
        stubRegistry.Definitions (Except.ok ⟨[]⟩) :: [] ∧
    (Reply choicelessAssistant helloConv 0).err =
      some (errorsNew "no choices returned by OpenAI") ∧
    (Reply choicelessAssistant helloConv 0).reply = "" :=
  have h := Reply_no_choices choicelessAssistant helloConv 0
    [Event.backend (seedTranscript helloConv) stubRegistry.Definitions
       (Except.ok dateResponse),
     Event.execute "get_today_date" "" (Except.ok "1")] []
    (seedTranscript helloConv ++ [ChatMsg.assistant "" [dateCall], ChatMsg.tool "1" "call_1"])
    stubRegistry.Definitions ⟨[]⟩ rfl rfl
  ⟨rfl, h.2.1, h.2.2.1⟩

/-- C10: on a non-empty conversation the first call `Reply` makes is a backend call, and
the transcript it sends is the fixed system instruction followed by exactly the
conversation's User-role and Assistant-role messages, in their original order, each as a
user or assistant message with its content unchanged; messages of other roles are left
out, so the seed has length 1 plus the number of User/Assistant messages. -/
theorem Reply_seed_transcript {W : Type} (a : Assistant W) (conv : Conversation) (w : W)
    (hne : conv.Messages ≠ []) :
    (∃ rest, (Reply a conv w).trace =
      Event.backend (seedTranscript conv) a.registry.Definitions
        (a.cli w (seedTranscript conv) a.registry.Definitions).1 :: rest) ∧
    seedTranscript conv =
      ChatMsg.system
        "You are a helpful, concise AI assistant. Provide accurate, safe, and clear responses." ::
      (conv.Messages.filter
          (fun m => decide (m.Role = Role.RoleUser ∨ m.Role = Role.RoleAssistant))).map
        (fun m => if m.Role = Role.RoleUser then ChatMsg.user m.Content
          else ChatMsg.assistant m.Content []) ∧
    (seedTranscript conv).length =
      1 + conv.Messages.countP
        (fun m => decide (m.Role = Role.RoleUser ∨ m.Role = Role.RoleAssistant)) := by
  have hlen : ¬ conv.Messages.length = 0 := by
    simpa [List.length_eq_zero] using hne
  have hseed : seedTranscript conv =
      ChatMsg.system
        "You are a helpful, concise AI assistant. Provide accurate, safe, and clear responses." ::
      (conv.Messages.filter
          (fun m => decide (m.Role = Role.RoleUser ∨ m.Role = Role.RoleAssistant))).map
        (fun m => if m.Role = Role.RoleUser then ChatMsg.user m.Content
          else ChatMsg.assistant m.Content []) := by
    unfold seedTranscript
    rw [foldl_seedStep]
    rfl
  refine ⟨?_, hseed, ?_⟩
  · obtain ⟨rest, hrest⟩ := replyLoop_first_call a 14
      { msgs := seedTranscript conv, world := w, trace := [] }
    refine ⟨rest, ?_⟩
    have hR : Reply a conv w =
        replyLoop a (14 + 1) { msgs := seedTranscript conv, world := w, trace := [] } := by
      simp [Reply, hlen, maxIterations]
    rw [hR, hrest]
    simp
  · rw [hseed]
    simp [List.countP_eq_length_filter, Nat.add_comm]

theorem Reply_seed_transcript_witness :
    fourRoleConv.Messages ≠ [] ∧
    seedTranscript fourRoleConv =
      [ChatMsg.system
         "You are a helpful, concise AI assistant. Provide accurate, safe, and clear responses.",
       ChatMsg.user "hi", ChatMsg.assistant "hello" [], ChatMsg.user "what day is it?"] ∧
    (seedTranscript fourRoleConv).length = 1 + 3 ∧
    ∃ rest, (Reply roundTripAssistant fourRoleConv 0).trace =
      Event.backend (seedTranscript fourRoleConv) stubRegistry.Definitions
        (Except.ok dateResponse) :: rest :=
  ⟨by simp [fourRoleConv], by decide, by decide,
   (Reply_seed_transcript roundTripAssistant fourRoleConv 0 (by simp [fourRoleConv])).1⟩


/-! ## A final answer ends the loop -/

theorem replyLoop_final_stops {W : Type} (a : Assistant W) :
    ∀ (n : Nat) (s : LoopState W) (new pre post : List Event) (msgs : List ChatMsg)
      (tools : List ToolDef) (resp : Response) (choice : Choice) (rest : List Choice),
      (replyLoop a n s).trace = s.trace ++ new →
      new = pre ++ Event.backend msgs tools (Except.ok resp) :: post →
      resp.Choices = choice :: rest → choice.Message.ToolCalls = [] →
      post = [] ∧ (replyLoop a n s).reply = choice.Message.Content ∧
        (replyLoop a n s).err = none := by
  intro n
  induction n with
  | zero =>
      intro s new pre post msgs tools resp choice rest htr hnew _ _
      simp only [replyLoop_zero, self_eq_add_right, List.self_eq_append_right] at htr
      rw [htr] at hnew
      simp at hnew
  | succ n ih =>
      intro s new pre post msgs tools resp choice rest htr hnew hch hfin
      rcases h : a.cli s.world s.msgs a.registry.Definitions with ⟨r0, w⟩
      cases r0 with
      | error e0 =>
          rw [replyLoop_backend_error a n s e0 w h] at htr
          simp only [List.append_cancel_left_eq] at htr
          rw [← htr] at hnew
          rcases List.cons_eq_append_iff.mp hnew with ⟨_, hq⟩ | ⟨p2, _, hq⟩
          · simp at hq
          · simp at hq
      | ok resp0 =>
          cases hc : resp0.Choices with
          | nil =>
              rw [replyLoop_no_choices a n s resp0 w h hc] at htr
              simp only [List.append_cancel_left_eq] at htr
              rw [← htr] at hnew
              rcases List.cons_eq_append_iff.mp hnew with ⟨_, hq⟩ | ⟨p2, _, hq⟩
              · simp only [List.cons.injEq, Event.backend.injEq, Except.ok.injEq] at hq
                obtain ⟨⟨_, _, hr⟩, _⟩ := hq
                subst hr
                rw [hc] at hch
                cases hch
              · simp at hq
          | cons choice0 rest0 =>
              by_cases ht : choice0.Message.ToolCalls = []
              · rw [replyLoop_final a n s resp0 w choice0 rest0 h hc ht] at htr ⊢
                simp only [List.append_cancel_left_eq] at htr
                rw [← htr] at hnew
                rcases List.cons_eq_append_iff.mp hnew with ⟨_, hq⟩ | ⟨p2, _, hq⟩
                · simp only [List.cons.injEq, Event.backend.injEq, Except.ok.injEq] at hq
                  obtain ⟨⟨_, _, hr⟩, hpost⟩ := hq
                  subst hr
                  rw [hc] at hch
                  simp only [List.cons.injEq] at hch
                  rw [hch.1]
                  exact ⟨hpost, rfl, rfl⟩
                · simp at hq
              · rw [replyLoop_tool_calls a n s resp0 w choice0 rest0 h hc ht] at htr ⊢
                obtain ⟨t, htt, hex⟩ := toolRound_trace a.registry
                  { msgs := s.msgs, world := w,
                    trace := s.trace ++
                      [Event.backend s.msgs a.registry.Definitions (Except.ok resp0)] }
                  choice0.Message
                obtain ⟨new2, hnew2⟩ := replyLoop_trace_extends a n (toolRound a.registry
                  { msgs := s.msgs, world := w,
                    trace := s.trace ++
                      [Event.backend s.msgs a.registry.Definitions (Except.ok resp0)] }
                  choice0.Message)
                have hshape : new =
                    Event.backend s.msgs a.registry.Definitions (Except.ok resp0) ::
                      (t ++ new2) := by
                  have := htr.symm.trans hnew2
                  rw [htt] at this
                  simpa using this
                rw [hshape] at hnew
                rcases List.cons_eq_append_iff.mp hnew with ⟨_, hq⟩ | ⟨p2, _, hq⟩
                · simp only [List.cons.injEq, Event.backend.injEq, Except.ok.injEq] at hq
                  obtain ⟨⟨_, _, hr⟩, _⟩ := hq
                  subst hr
                  rw [hc] at hch
                  simp only [List.cons.injEq] at hch
                  rw [hch.1] at ht
                  exact absurd hfin ht
                · obtain ⟨p3, hp3⟩ := split_after_executes t new2 p2 post
                    (Event.backend msgs tools (Except.ok resp)) hex rfl hq
                  exact ih _ new2 p3 post msgs tools resp choice rest hnew2 hp3 hch hfin

/-- C11: if a backend call made by `Reply` succeeded with a first choice that carries no
tool-call request, then nothing follows it in the trace (no further backend call, no tool
call) and `Reply` returns the content of that choice unchanged, without error; the content
may be the empty string. -/
theorem Reply_final_content {W : Type} (a : Assistant W) (conv : Conversation) (w : W)
    (pre post : List Event) (msgs : List ChatMsg) (tools : List ToolDef) (resp : Response)
    (choice : Choice) (rest : List Choice)
    (htrace : (Reply a conv w).trace =
      pre ++ Event.backend msgs tools (Except.ok resp) :: post)
    (hc : resp.Choices = choice :: rest)
    (hfinal : choice.Message.ToolCalls = []) :
    post = [] ∧ (Reply a conv w).reply = choice.Message.Content ∧
    (Reply a conv w).err = none := by
  by_cases hlen : conv.Messages.length = 0
  · simp [Reply, hlen] at htrace
  · have hR : Reply a conv w =
        replyLoop a maxIterations { msgs := seedTranscript conv, world := w, trace := [] } := by
      simp [Reply, hlen]
    rw [hR] at htrace ⊢
    exact replyLoop_final_stops a maxIterations
      { msgs := seedTranscript conv, world := w, trace := [] }
      (pre ++ Event.backend msgs tools (Except.ok resp) :: post) pre post msgs tools
      resp choice rest (by simpa using htrace) rfl hc hfinal

theorem Reply_final_content_witness :
    (Reply silentAssistant helloConv 0).trace =
      [] ++ Event.backend (seedTranscript helloConv) stubRegistry.Definitions
        (Except.ok ⟨[⟨{ Content := "", ToolCalls := [] }⟩]⟩) :: [] ∧
    (Reply silentAssistant helloConv 0).reply = "" ∧
    (Reply silentAssistant helloConv 0).err = none :=
  have h := Reply_final_content silentAssistant helloConv 0 [] []
    (seedTranscript helloConv) stubRegistry.Definitions
    ⟨[⟨{ Content := "", ToolCalls := [] }⟩]⟩ ⟨{ Content := "", ToolCalls := [] }⟩ []
    rfl rfl rfl
  ⟨rfl, h.2.1, h.2.2⟩

/-! ## Claims about `Title` -/

theorem Title_backend_error {W : Type} (a : Assistant W) (conv : Conversation) (w w1 : W)
    (e : GoError) (hne : conv.Messages ≠ [])
    (h : a.cli w (titleMessages conv.Messages [ChatMsg.system titleSystemPrompt]) [] =
      (Except.error e, w1)) :
    Title a conv w =
      { title := [], err := some e, world := w1,
        trace := [Event.backend
          (titleMessages conv.Messages [ChatMsg.system titleSystemPrompt]) []
          (Except.error e)] } := by
  have hlen : ¬ conv.Messages.length = 0 := by
    simpa [List.length_eq_zero] using hne
  simp [Title, hlen, SystemMessage, h]

theorem Title_no_choices {W : Type} (a : Assistant W) (conv : Conversation) (w w1 : W)
    (resp : Response) (hne : conv.Messages ≠ [])
    (h : a.cli w (titleMessages conv.Messages [ChatMsg.system titleSystemPrompt]) [] =
      (Except.ok resp, w1))
    (hc : resp.Choices = []) :
    Title a conv w =
      { title := [], err := some errEmptyTitle, world := w1,
        trace := [Event.backend
          (titleMessages conv.Messages [ChatMsg.system titleSystemPrompt]) []
          (Except.ok resp)] } := by
  have hlen : ¬ conv.Messages.length = 0 := by
    simpa [List.length_eq_zero] using hne
  simp [Title, hlen, SystemMessage, h, hc]

theorem Title_blank_content {W : Type} (a : Assistant W) (conv : Conversation) (w w1 : W)
    (resp : Response) (choice : Choice) (rest : List Choice) (hne : conv.Messages ≠ [])
    (h : a.cli w (titleMessages conv.Messages [ChatMsg.system titleSystemPrompt]) [] =
      (Except.ok resp, w1))
    (hc : resp.Choices = choice :: rest)
    (hblank : TrimSpace choice.Message.Content = "") :
    Title a conv w =
      { title := [], err := some errEmptyTitle, world := w1,
        trace := [Event.backend
          (titleMessages conv.Messages [ChatMsg.system titleSystemPrompt]) []
          (Except.ok resp)] } := by
  have hlen : ¬ conv.Messages.length = 0 := by
    simpa [List.length_eq_zero] using hne
  simp [Title, hlen, SystemMessage, h, hc, hblank]

theorem Title_of_content {W : Type} (a : Assistant W) (conv : Conversation) (w w1 : W)
    (resp : Response) (choice : Choice) (rest : List Choice) (hne : conv.Messages ≠ [])
    (h : a.cli w (titleMessages conv.Messages [ChatMsg.system titleSystemPrompt]) [] =
      (Except.ok resp, w1))
    (hc : resp.Choices = choice :: rest)
    (hblank : TrimSpace choice.Message.Content ≠ "") :
    Title a conv w =
      { title := titlePostProcess choice.Message.Content, err := none, world := w1,
        trace := [Event.backend
          (titleMessages conv.Messages [ChatMsg.system titleSystemPrompt]) []
          (Except.ok resp)] } := by
  have hlen : ¬ conv.Messages.length = 0 := by
    simpa [List.length_eq_zero] using hne
  simp [Title, hlen, SystemMessage, h, hc, hblank]

/-- C12: on a conversation with zero messages `Title` returns the fixed placeholder
"An empty conversation" without error and makes no backend call (empty trace, world
untouched); the result is the same whatever the assistant and the world, so it is the same
on every call. -/
theorem Title_empty_conversation {W : Type} (a a2 : Assistant W) (conv : Conversation)
    (w w2 : W) (h : conv.Messages = []) :
    (Title a conv w).title = goBytes "An empty conversation" ∧
    (Title a conv w).err = none ∧
    (Title a conv w).trace = [] ∧
    backendCalls (Title a conv w).trace = 0 ∧
    (Title a conv w).world = w ∧
    (Title a2 conv w2).title = (Title a conv w).title ∧
    (Title a2 conv w2).err = (Title a conv w).err := by
  simp [Title, h, backendCalls]

theorem Title_empty_conversation_witness :
    emptyConv.Messages = [] ∧
    (Title loopingAssistant emptyConv 0).title = goBytes "An empty conversation" ∧
    (Title loopingAssistant emptyConv 0).err = none ∧
    (Title loopingAssistant emptyConv 0).trace = [] ∧
    (Title silentAssistant emptyConv 7).title = (Title loopingAssistant emptyConv 0).title :=
  have h := Title_empty_conversation loopingAssistant silentAssistant emptyConv 0 7 rfl
  ⟨rfl, h.1, h.2.1, h.2.2.1, h.2.2.2.2.2.1⟩

theorem titleMessages_first_user (before after : List Message) (m : Message)
    (acc : List ChatMsg) (hm : m.Role = Role.RoleUser)
    (hb : ∀ x ∈ before, x.Role ≠ Role.RoleUser) :
    titleMessages (before ++ m :: after) acc = acc ++ [ChatMsg.user m.Content] := by
  induction before with
  | nil => simp [titleMessages, hm, UserMessage]
  | cons x rest ih =>
      have hx : x.Role ≠ Role.RoleUser := hb x (List.mem_cons_self _ _)
      simp only [List.cons_append, titleMessages, hx, if_false]
      exact ih (fun y hy => hb y (List.mem_cons_of_mem _ hy))

theorem titleMessages_no_user (messages : List Message) (acc : List ChatMsg)
    (hb : ∀ x ∈ messages, x.Role ≠ Role.RoleUser) :
    titleMessages messages acc = acc := by
  induction messages with
  | nil => rfl
  | cons x rest ih =>
      have hx : x.Role ≠ Role.RoleUser := hb x (List.mem_cons_self _ _)
      simp only [titleMessages, hx, if_false]
      exact ih (fun y hy => hb y (List.mem_cons_of_mem _ hy))

/-- C13: on a non-empty conversation `Title` makes exactly one backend call, and the
transcript it sends is the fixed title system instruction followed by at most one further
message: a User message with the content of the first User-role message of the
conversation, whatever precedes or follows it; nothing of any other message is sent, and
when the conversation has no User-role message the system instruction is sent alone. -/
theorem Title_sends_first_user_message {W : Type} (a : Assistant W) (conv : Conversation)
    (w : W) (hne : conv.Messages ≠ []) :
    (∃ msgs r, (Title a conv w).trace = [Event.backend msgs [] r] ∧
      msgs = titleMessages conv.Messages [ChatMsg.system titleSystemPrompt] ∧
      (∀ (before after : List Message) (m : Message),
        conv.Messages = before ++ m :: after → m.Role = Role.RoleUser →
        (∀ x ∈ before, x.Role ≠ Role.RoleUser) →
        msgs = [ChatMsg.system titleSystemPrompt, ChatMsg.user m.Content]) ∧
      ((∀ x ∈ conv.Messages, x.Role ≠ Role.RoleUser) →
        msgs = [ChatMsg.system titleSystemPrompt])) ∧
    backendCalls (Title a conv w).trace = 1 ∧
    executeCalls (Title a conv w).trace = 0 := by
  have hshape : ∃ r, (Title a conv w).trace =
      [Event.backend (titleMessages conv.Messages [ChatMsg.system titleSystemPrompt]) [] r] := by
    rcases h : a.cli w (titleMessages conv.Messages [ChatMsg.system titleSystemPrompt]) []
      with ⟨r, w1⟩
    cases r with
    | error e => exact ⟨_, by rw [Title_backend_error a conv w w1 e hne h]⟩
    | ok resp =>
        cases hc : resp.Choices with
        | nil => exact ⟨_, by rw [Title_no_choices a conv w w1 resp hne h hc]⟩
        | cons choice rest =>
            by_cases ht : TrimSpace choice.Message.Content = ""
            · exact ⟨_, by rw [Title_blank_content a conv w w1 resp choice rest hne h hc ht]⟩
            · exact ⟨_, by rw [Title_of_content a conv w w1 resp choice rest hne h hc ht]⟩
  obtain ⟨r, hr⟩ := hshape
  refine ⟨⟨_, r, hr, rfl, ?_, ?_⟩, ?_, ?_⟩
  · intro before after m hsplit hm hb
    rw [hsplit, titleMessages_first_user before after m _ hm hb]
    rfl
  · intro hb
    exact titleMessages_no_user conv.Messages _ hb
  · rw [hr]; rfl
  · rw [hr]; rfl

theorem Title_sends_first_user_message_witness :
    laterUserConv.Messages ≠ [] ∧
    ∃ r, (Title (titleAssistant "Questions") laterUserConv 0).trace =
      [Event.backend
        [ChatMsg.system "Generate a concise, descriptive title for the conversation based on the user's first message. The title should be a single line, no more than 80 characters, and should not include any special characters or emojis. Only return the title, nothing else.",
         ChatMsg.user "first question"] [] r] :=
  ⟨by simp [laterUserConv],
   (Title_sends_first_user_message (titleAssistant "Questions") laterUserConv 0
      (by simp [laterUserConv])).1.elim
     (fun msgs hm => hm.elim (fun r hr =>
       ⟨r, by
         rw [hr.1, hr.2.2.1 [⟨Role.RoleAssistant, "welcome"⟩]
           [⟨Role.RoleAssistant, "an answer"⟩, ⟨Role.RoleUser, "second question"⟩]
           ⟨Role.RoleUser, "first question"⟩ rfl rfl (by decide)]
         rfl⟩))⟩


/-! ## The post-processing of the title -/

theorem dropWhile_head_not {α : Type} (p : α → Bool) (l : List α) (x : α)
    (h : (l.dropWhile p).head? = some x) : p x = false := by
  induction l with
  | nil => simp at h
  | cons a rest ih =>
      by_cases ha : p a = true
      · rw [List.dropWhile_cons_of_pos ha] at h
        exact ih h
      · rw [List.dropWhile_cons_of_neg ha] at h
        simp only [List.head?_cons, Option.some.injEq] at h
        subst h
        simpa using ha

theorem dropWhile_getLast {α : Type} (p : α → Bool) (l : List α) (x : α)
    (h : (l.dropWhile p).getLast? = some x) : l.getLast? = some x := by
  induction l with
  | nil => simp at h
  | cons a rest ih =>
      by_cases ha : p a = true
      · rw [List.dropWhile_cons_of_pos ha] at h
        have hr := ih h
        cases rest with
        | nil => simp at hr
        | cons b rest2 => simpa [List.getLast?_cons_cons] using hr
      · rw [List.dropWhile_cons_of_neg ha] at h
        exact h

theorem dropWhile_subset {α : Type} (p : α → Bool) (l : List α) (x : α)
    (h : x ∈ l.dropWhile p) : x ∈ l :=
  (List.dropWhile_sublist p).subset h

theorem Trim_subset (s cutset : List Nat) (x : Nat) (h : x ∈ Trim s cutset) : x ∈ s := by
  unfold Trim at h
  have h1 := dropWhile_subset _ _ x h
  rw [List.mem_reverse] at h1
  have h2 := dropWhile_subset _ _ x h1
  simpa using h2

theorem Trim_head_not_in_cutset (s cutset : List Nat) (b : Nat) (hb : b ∈ cutset) :
    (Trim s cutset).head? ≠ some b := by
  intro h
  have := dropWhile_head_not _ _ b h
  simp [hb] at this

theorem Trim_getLast_not_in_cutset (s cutset : List Nat) (b : Nat) (hb : b ∈ cutset) :
    (Trim s cutset).getLast? ≠ some b := by
  intro h
  unfold Trim at h
  have h1 := dropWhile_getLast _ _ b h
  rw [List.getLast?_reverse] at h1
  have := dropWhile_head_not _ _ b h1
  simp [hb] at this

theorem ReplaceAll_removes (s : List Nat) (old : Nat) (new : List Nat) (hnew : old ∉ new) :
    old ∉ ReplaceAll s old new := by
  unfold ReplaceAll
  rw [List.mem_flatMap]
  rintro ⟨b, _, hb⟩
  by_cases hbo : b = old
  · rw [if_pos hbo] at hb
    exact hnew hb
  · rw [if_neg hbo] at hb
    simp only [List.mem_singleton] at hb
    exact hbo hb.symm

theorem titlePostProcess_eq (content : String) :
    titlePostProcess content =
      if (Trim (ReplaceAll (goBytes content) 0x0A [0x20]) titleCutset).length ≤ 80 then
        Trim (ReplaceAll (goBytes content) 0x0A [0x20]) titleCutset
      else (Trim (ReplaceAll (goBytes content) 0x0A [0x20]) titleCutset).take 80 := by
  have hsp : goBytes " " = [0x20] := by decide
  unfold titlePostProcess
  simp only [hsp]
  by_cases hl : (Trim (ReplaceAll (goBytes content) 0x0A [0x20]) titleCutset).length ≤ 80
  · rw [if_pos hl, if_neg (by omega)]
  · rw [if_neg hl, if_pos (by omega)]

theorem titlePostProcess_length (content : String) :
    (titlePostProcess content).length ≤ 80 := by
  rw [titlePostProcess_eq]
  split
  · assumption
  · simp [List.length_take]

theorem titlePostProcess_subset (content : String) (x : Nat)
    (h : x ∈ titlePostProcess content) :
    x ∈ ReplaceAll (goBytes content) 0x0A [0x20] := by
  rw [titlePostProcess_eq] at h
  split at h
  · exact Trim_subset _ _ x h
  · exact Trim_subset _ _ x (List.mem_of_mem_take h)

theorem titlePostProcess_head (content : String) (b : Nat) (hb : b ∈ titleCutset) :
    (titlePostProcess content).head? ≠ some b := by
  rw [titlePostProcess_eq]
  split
  · exact Trim_head_not_in_cutset _ _ b hb
  · intro h
    apply Trim_head_not_in_cutset (ReplaceAll (goBytes content) 0x0A [0x20]) titleCutset b hb
    cases hT : Trim (ReplaceAll (goBytes content) 0x0A [0x20]) titleCutset with
    | nil => rw [hT] at h; simp at h
    | cons x rest => rw [hT] at h; simpa using h

theorem Title_result_cases {W : Type} (a : Assistant W) (conv : Conversation) (w : W) :
    (conv.Messages = [] ∧ (Title a conv w).title = goBytes "An empty conversation" ∧
      (Title a conv w).err = none) ∨
    (conv.Messages ≠ [] ∧ (Title a conv w).title = [] ∧ ∃ e, (Title a conv w).err = some e) ∨
    (conv.Messages ≠ [] ∧ ∃ (resp : Response) (w1 : W) (choice : Choice) (rest : List Choice),
      a.cli w (titleMessages conv.Messages [ChatMsg.system titleSystemPrompt]) [] =
        (Except.ok resp, w1) ∧
      resp.Choices = choice :: rest ∧ TrimSpace choice.Message.Content ≠ "" ∧
      (Title a conv w).title = titlePostProcess choice.Message.Content ∧
      (Title a conv w).err = none) := by
  by_cases hne : conv.Messages = []
  · exact Or.inl ⟨hne, by simp [Title, hne], by simp [Title, hne]⟩
  · refine Or.inr ?_
    rcases h : a.cli w (titleMessages conv.Messages [ChatMsg.system titleSystemPrompt]) []
      with ⟨r, w1⟩
    cases r with
    | error e =>
        rw [Title_backend_error a conv w w1 e hne h]
        exact Or.inl ⟨hne, rfl, e, rfl⟩
    | ok resp =>
        cases hc : resp.Choices with
        | nil =>
            rw [Title_no_choices a conv w w1 resp hne h hc]
            exact Or.inl ⟨hne, rfl, _, rfl⟩
        | cons choice rest =>
            by_cases ht : TrimSpace choice.Message.Content = ""
            · rw [Title_blank_content a conv w w1 resp choice rest hne h hc ht]
              exact Or.inl ⟨hne, rfl, _, rfl⟩
            · rw [Title_of_content a conv w w1 resp choice rest hne h hc ht]
              exact Or.inr ⟨hne, resp, w1, choice, rest, rfl, hc, ht, rfl, rfl⟩

/-- C14: for every conversation and every backend response, the title `Title` returns has
at most 80 bytes, which is what Go's `len` counts and bounds the number of characters; this
holds on every return, in particular on those without error. -/
theorem Title_length_le_80 {W : Type} (a : Assistant W) (conv : Conversation) (w : W) :
    (Title a conv w).title.length ≤ 80 := by
  rcases Title_result_cases a conv w with ⟨_, ht, _⟩ | ⟨_, ht, _⟩ |
    ⟨_, resp, w1, choice, rest, _, _, _, ht, _⟩
  · rw [ht]; decide
  · rw [ht]; simp
  · rw [ht]; exact titlePostProcess_length _

/-- C15 (as amended): for every conversation and every backend response content, the
title `Title` returns contains no line-feed byte anywhere, and it does not begin with a
carriage return. -/
theorem Title_no_line_feed {W : Type} (a : Assistant W) (conv : Conversation) (w : W) :
    0x0A ∉ (Title a conv w).title ∧ (Title a conv w).title.head? ≠ some 0x0D := by
  rcases Title_result_cases a conv w with ⟨_, ht, _⟩ | ⟨_, ht, _⟩ |
    ⟨_, resp, w1, choice, rest, _, _, _, ht, _⟩
  · rw [ht]; decide
  · rw [ht]; simp
  · rw [ht]
    refine ⟨?_, titlePostProcess_head _ 0x0D (by decide)⟩
    intro hmem
    exact ReplaceAll_removes _ 0x0A [0x20] (by decide) (titlePostProcess_subset _ _ hmem)

/-- C15 (counterexample): on the backend content "a\rb" `Title` returns without error a
title that contains a carriage return. -/
theorem Title_keeps_inner_carriage_return :
    helloConv.Messages ≠ [] ∧
    (Title (titleAssistant "a\rb") helloConv 0).err = none ∧
    0x0D ∈ (Title (titleAssistant "a\rb") helloConv 0).title ∧
    (Title (titleAssistant "a\rb") helloConv 0).title = [0x61, 0x0D, 0x62] := by
  decide

/-- C16 (failing input): on the backend content "-" `Title` returns the empty title
without error, on a non-empty conversation. -/
theorem Title_empty_title_without_error :
    helloConv.Messages ≠ [] ∧
    TrimSpace "-" ≠ "" ∧
    Trim (ReplaceAll (goBytes "-") 0x0A (goBytes " ")) titleCutset = [] ∧
    (Title (titleAssistant "-") helloConv 0).err = none ∧
    (Title (titleAssistant "-") helloConv 0).title = [] := by
  decide


theorem titlePostProcess_getLast (content : String) (b : Nat) (hb : b ∈ titleCutset)
    (hshort : (Trim (ReplaceAll (goBytes content) 0x0A [0x20]) titleCutset).length ≤ 80) :
    (titlePostProcess content).getLast? ≠ some b := by
  rw [titlePostProcess_eq, if_pos hshort]
  exact Trim_getLast_not_in_cutset _ _ b hb

theorem goBytes_of_ascii (l : List Char) (h : ∀ c ∈ l, c.toNat < 0x80) :
    goBytes ⟨l⟩ = l.map Char.toNat := by
  induction l with
  | nil => rfl
  | cons c rest ih =>
      have hc : c.toNat < 0x80 := h c (List.mem_cons_self _ _)
      have hrest := ih (fun x hx => h x (List.mem_cons_of_mem _ hx))
      simp only [goBytes, List.flatMap_cons, List.map_cons] at hrest ⊢
      rw [hrest]
      simp [utf8EncodeRune, hc]

/-- C20 (as amended): on a non-empty conversation, when `Title` returns without error on
the backend content `c`, with `c` collapsed and trimmed (line feeds turned into spaces,
then bytes of the cutset removed at both ends): the title does not begin with a space,
tab, carriage return, line feed, dash, double quote or single quote; when the
collapsed-and-trimmed content takes at most 80 bytes, the title equals it and does not end
with one of those characters either; and when the collapsed-and-trimmed content is a text
`t` of ASCII characters only, the title is `t` when `t` has at most 80 characters and the
first 80 characters of `t` otherwise. -/
theorem Title_trim_then_truncate {W : Type} (a : Assistant W) (conv : Conversation) (w w1 : W)
    (resp : Response) (choice : Choice) (rest : List Choice)
    (hne : conv.Messages ≠ [])
    (h : a.cli w (titleMessages conv.Messages [ChatMsg.system titleSystemPrompt]) [] =
      (Except.ok resp, w1))
    (hc : resp.Choices = choice :: rest)
    (hok : (Title a conv w).err = none) :
    (∀ b ∈ [0x20, 0x09, 0x0D, 0x0A, 0x2D, 0x22, 0x27],
      (Title a conv w).title.head? ≠ some b) ∧
    ((Trim (ReplaceAll (goBytes choice.Message.Content) 0x0A [0x20])
        [0x20, 0x09, 0x0D, 0x0A, 0x2D, 0x22, 0x27]).length ≤ 80 →
      (Title a conv w).title =
        Trim (ReplaceAll (goBytes choice.Message.Content) 0x0A [0x20])
          [0x20, 0x09, 0x0D, 0x0A, 0x2D, 0x22, 0x27] ∧
      ∀ b ∈ [0x20, 0x09, 0x0D, 0x0A, 0x2D, 0x22, 0x27],
        (Title a conv w).title.getLast? ≠ some b) ∧
    (∀ t : String,
      goBytes t = Trim (ReplaceAll (goBytes choice.Message.Content) 0x0A [0x20])
        [0x20, 0x09, 0x0D, 0x0A, 0x2D, 0x22, 0x27] →
      (∀ c ∈ t.data, c.toNat < 0x80) →
      (t.length ≤ 80 → (Title a conv w).title = goBytes t) ∧
      (80 < t.length → (Title a conv w).title = goBytes ⟨t.data.take 80⟩)) := by
  have hblank : TrimSpace choice.Message.Content ≠ "" := by
    intro hb
    rw [Title_blank_content a conv w w1 resp choice rest hne h hc hb] at hok
    cases hok
  rw [Title_of_content a conv w w1 resp choice rest hne h hc hblank]
  refine ⟨?_, ?_, ?_⟩
  · intro b hb
    exact titlePostProcess_head _ b hb
  · intro hshort
    refine ⟨?_, ?_⟩
    · rw [titlePostProcess_eq]
      exact if_pos hshort
    · intro b hb
      exact titlePostProcess_getLast _ b hb hshort
  · intro t ht hascii
    have hbytes : goBytes t = t.data.map Char.toNat := goBytes_of_ascii t.data hascii
    have hlen : (goBytes t).length = t.length := by
      rw [hbytes, List.length_map]
      rfl
    have ht2 : Trim (ReplaceAll (goBytes choice.Message.Content) 0x0A [0x20]) titleCutset =
        goBytes t := ht.symm
    have hpp := titlePostProcess_eq choice.Message.Content
    rw [ht2] at hpp
    refine ⟨?_, ?_⟩
    · intro hshort
      show titlePostProcess choice.Message.Content = _
      rw [hpp, if_pos (by rw [hlen]; exact hshort)]
    · intro hlong
      show titlePostProcess choice.Message.Content = _
      rw [hpp, if_neg (by rw [hlen]; omega)]
      rw [goBytes_of_ascii (t.data.take 80) (fun c hc => hascii c (List.mem_of_mem_take hc)),
        hbytes, List.map_take]

theorem Title_trim_then_truncate_witness :
    helloConv.Messages ≠ [] ∧
    (Title (titleAssistant "  \"Weather in\nBarcelona\" - ") helloConv 0).err = none ∧
    (Title (titleAssistant "  \"Weather in\nBarcelona\" - ") helloConv 0).title =
      goBytes "Weather in Barcelona" ∧
    (∀ b ∈ [0x20, 0x09, 0x0D, 0x0A, 0x2D, 0x22, 0x27],
      (Title (titleAssistant "  \"Weather in\nBarcelona\" - ") helloConv 0).title.head? ≠
        some b) ∧
    (∀ b ∈ [0x20, 0x09, 0x0D, 0x0A, 0x2D, 0x22, 0x27],
      (Title (titleAssistant "  \"Weather in\nBarcelona\" - ") helloConv 0).title.getLast? ≠
        some b) ∧
    (Title (titleAssistant longContent) helloConv 0).err = none ∧
    (Title (titleAssistant longContent) helloConv 0).title =
      goBytes ⟨longContent.data.take 80⟩ :=
  have h := Title_trim_then_truncate (titleAssistant "  \"Weather in\nBarcelona\" - ")
    helloConv 0 1 ⟨[⟨{ Content := "  \"Weather in\nBarcelona\" - ", ToolCalls := [] }⟩]⟩
    ⟨{ Content := "  \"Weather in\nBarcelona\" - ", ToolCalls := [] }⟩ []
    (by simp [helloConv]) rfl rfl (by decide)
  have hlong := Title_trim_then_truncate (titleAssistant longContent)
    helloConv 0 1 ⟨[⟨{ Content := longContent, ToolCalls := [] }⟩]⟩
    ⟨{ Content := longContent, ToolCalls := [] }⟩ []
    (by simp [helloConv]) rfl rfl (by decide)
  ⟨by simp [helloConv], by decide,
   (h.2.2 "Weather in Barcelona" (by decide) (by decide)).1 (by decide),
   h.1, (h.2.1 (by decide)).2, by decide,
   (hlong.2.2 longContent (by decide) (by decide)).2 (by decide)⟩

/-- C20 (counterexample): on a backend content of 81 bytes whose 80th byte is a space,
`Title` returns without error a title of 80 bytes that ends with a space; and on a backend
content of 80 characters that takes 81 bytes (79 times a, then U+00E9), which collapsing
and trimming leave unchanged, `Title` returns without error a title that is not that
content: it has 80 bytes and ends with the byte 0xC3. -/
theorem Title_truncated_ends_with_space :
    helloConv.Messages ≠ [] ∧
    ((Title (titleAssistant longContent) helloConv 0).err = none ∧
      (Title (titleAssistant longContent) helloConv 0).title.length = 80 ∧
      (Title (titleAssistant longContent) helloConv 0).title.getLast? = some 0x20) ∧
    (accentContent.length = 80 ∧
      Trim (ReplaceAll (goBytes accentContent) 0x0A (goBytes " ")) titleCutset =
        goBytes accentContent ∧
      (Title (titleAssistant accentContent) helloConv 0).err = none ∧
      (Title (titleAssistant accentContent) helloConv 0).title ≠ goBytes accentContent ∧
      (Title (titleAssistant accentContent) helloConv 0).title.length = 80 ∧
      (Title (titleAssistant accentContent) helloConv 0).title.getLast? = some 0xC3) := by
  decide

/-! ## The registry -/

theorem mapGet_mapSet_self {W : Type} (key : String) (value : Tool W)
    (l : List (String × Tool W)) : mapGet key (mapSet key value l) = some value := by
  induction l with
  | nil => simp [mapSet, mapGet]
  | cons entry rest ih =>
      rcases entry with ⟨k, v⟩
      by_cases hk : k = key
      · simp [mapSet, mapGet, hk]
      · simp [mapSet, mapGet, hk, ih]

theorem mapGet_mapSet_other {W : Type} (key other : String) (value : Tool W)
    (l : List (String × Tool W)) (h : other ≠ key) :
    mapGet other (mapSet key value l) = mapGet other l := by
  induction l with
  | nil => simp [mapSet, mapGet, Ne.symm h]
  | cons entry rest ih =>
      rcases entry with ⟨k, v⟩
      by_cases hk : k = key
      · subst hk
        simp [mapSet, mapGet, Ne.symm h]
      · by_cases hko : k = other
        · subst hko
          simp [mapSet, mapGet, hk]
        · simp [mapSet, mapGet, hk, hko, ih]

/-- C17: whatever the registry holds, after `Register(t1)` and then `Register(t2)` for two
tools of the same name, `Get` of that name returns `(t2, true)`: the last registration
wins and `t1` (when it is another tool) is not what the name resolves to; `Get` of every
other name is as before the two registrations. -/
theorem Registry_last_registration_wins {W : Type} (r : Registry W) (t1 t2 : Tool W)
    (hname : t1.Name = t2.Name) :
    ((r.Register t1).Register t2).Get t2.Name = some t2 ∧
    (t1 ≠ t2 → ((r.Register t1).Register t2).Get t1.Name ≠ some t1) ∧
    (∀ other : String, other ≠ t2.Name →
      ((r.Register t1).Register t2).Get other = r.Get other) := by
  refine ⟨?_, ?_, ?_⟩
  · simp [Registry.Get, Registry.Register, mapGet_mapSet_self]
  · intro hne hget
    rw [hname] at hget
    simp only [Registry.Get, Registry.Register, mapGet_mapSet_self, Option.some.injEq] at hget
    exact hne hget.symm
  · intro other hother
    simp only [Registry.Get, Registry.Register]
    rw [mapGet_mapSet_other _ _ _ _ hother, mapGet_mapSet_other _ _ _ _ (hname ▸ hother)]

theorem Registry_last_registration_wins_witness :
    (DateTool stubClock).Name = otherDateTool.Name ∧
    (((stubRegistry.Register (DateTool stubClock)).Register otherDateTool).Get
      "get_today_date").map Tool.Definition = some otherDateTool.Definition ∧
    (((stubRegistry.Register (DateTool stubClock)).Register otherDateTool).Get
      "get_weather").map Tool.Definition = some failingTool.Definition :=
  have h := Registry_last_registration_wins stubRegistry (DateTool stubClock) otherDateTool rfl
  ⟨rfl, by rw [show "get_today_date" = otherDateTool.Name from rfl, h.1]; rfl,
   by rw [h.2.2 "get_weather" (by decide)]; rfl⟩


theorem mem_keys_mapSet {W : Type} (key : String) (value : Tool W)
    (l : List (String × Tool W)) (x : String) :
    x ∈ (mapSet key value l).map Prod.fst ↔ x = key ∨ x ∈ l.map Prod.fst := by
  induction l with
  | nil => simp [mapSet]
  | cons entry rest ih =>
      rcases entry with ⟨k, v⟩
      by_cases hk : k = key
      · subst hk
        simp [mapSet]
      · simp only [mapSet, hk, if_false, List.map_cons, List.mem_cons, ih]
        tauto

theorem nodup_keys_mapSet {W : Type} (key : String) (value : Tool W)
    (l : List (String × Tool W)) (h : (l.map Prod.fst).Nodup) :
    ((mapSet key value l).map Prod.fst).Nodup := by
  induction l with
  | nil => simp [mapSet]
  | cons entry rest ih =>
      rcases entry with ⟨k, v⟩
      simp only [List.map_cons, List.nodup_cons] at h
      by_cases hk : k = key
      · subst hk
        simpa [mapSet] using h
      · simp only [mapSet, hk, if_false, List.map_cons, List.nodup_cons]
        refine ⟨?_, ih h.2⟩
        intro hmem
        rcases (mem_keys_mapSet key value rest k).mp hmem with h1 | h1
        · exact hk h1
        · exact h.1 h1

theorem mapGet_eq_none_iff {W : Type} (key : String) (l : List (String × Tool W)) :
    mapGet key l = none ↔ key ∉ l.map Prod.fst := by
  induction l with
  | nil => simp [mapGet]
  | cons entry rest ih =>
      rcases entry with ⟨k, v⟩
      by_cases hk : k = key
      · simp [mapGet, hk]
      · simp [mapGet, hk, ih, Ne.symm hk]

theorem foldl_snoc_eq_map {α β : Type} (f : α → β) (l : List α) :
    ∀ acc : List β, l.foldl (fun out x => out ++ [f x]) acc = acc ++ l.map f := by
  induction l with
  | nil => intro acc; simp
  | cons x rest ih => intro acc; simp [ih]

theorem Definitions_eq_map {W : Type} (r : Registry W) :
    r.Definitions = r.tools.map (fun entry => entry.2.Definition) := by
  simp [Registry.Definitions, foldl_snoc_eq_map]

theorem List_eq_map {W : Type} (r : Registry W) : r.List = r.tools.map Prod.fst := by
  simp [Registry.List, foldl_snoc_eq_map]

theorem map_definition_eq_filterMap {W : Type} (l : List (String × Tool W))
    (h : (l.map Prod.fst).Nodup) :
    l.map (fun entry => entry.2.Definition) =
      (l.map Prod.fst).filterMap (fun n => (mapGet n l).map Tool.Definition) := by
  induction l with
  | nil => simp
  | cons entry rest ih =>
      rcases entry with ⟨k, v⟩
      simp only [List.map_cons, List.nodup_cons] at h
      have htail : (rest.map Prod.fst).filterMap
            (fun n => (mapGet n ((k, v) :: rest)).map Tool.Definition) =
          (rest.map Prod.fst).filterMap (fun n => (mapGet n rest).map Tool.Definition) := by
        apply List.filterMap_congr
        intro n hn
        have hkn : ¬ k = n := by
          intro hkn
          exact h.1 (hkn ▸ hn)
        simp [mapGet, hkn]
      have hhead : mapGet k ((k, v) :: rest) = some v := by simp [mapGet]
      rw [List.map_cons, List.map_cons, List.filterMap_cons_some (by rw [hhead]; rfl), htail,
        ← ih h.2]

theorem foldl_Register_keys {W : Type} (tools : List (Tool W)) :
    ∀ (r0 : Registry W) (x : String),
      x ∈ (tools.foldl Registry.Register r0).tools.map Prod.fst ↔
        x ∈ r0.tools.map Prod.fst ∨ x ∈ tools.map Tool.Name := by
  induction tools with
  | nil => intro r0 x; simp
  | cons t rest ih =>
      intro r0 x
      rw [List.foldl_cons, ih]
      simp only [Registry.Register, mem_keys_mapSet, List.map_cons, List.mem_cons]
      tauto

theorem foldl_Register_nodup {W : Type} (tools : List (Tool W)) :
    ∀ r0 : Registry W, (r0.tools.map Prod.fst).Nodup →
      ((tools.foldl Registry.Register r0).tools.map Prod.fst).Nodup := by
  induction tools with
  | nil => intro r0 h; simpa using h
  | cons t rest ih =>
      intro r0 h
      rw [List.foldl_cons]
      exact ih _ (nodup_keys_mapSet _ _ _ h)

theorem foldl_Register_get {W : Type} (tools : List (Tool W)) :
    ∀ (r0 : Registry W) (n : String) (t : Tool W),
      (tools.foldl Registry.Register r0).Get n = some t →
        (t ∈ tools ∧ t.Name = n) ∨ r0.Get n = some t := by
  induction tools with
  | nil => intro r0 n t h; exact Or.inr h
  | cons t0 rest ih =>
      intro r0 n t h
      rw [List.foldl_cons] at h
      rcases ih _ n t h with ⟨hm, hn⟩ | h1
      · exact Or.inl ⟨List.mem_cons_of_mem _ hm, hn⟩
      · by_cases hn : n = t0.Name
        · subst hn
          simp only [Registry.Get, Registry.Register, mapGet_mapSet_self,
            Option.some.injEq] at h1
          subst h1
          exact Or.inl ⟨List.mem_cons_self _ _, rfl⟩
        · simp only [Registry.Get, Registry.Register] at h1
          rw [mapGet_mapSet_other _ _ _ _ hn] at h1
          exact Or.inr h1

/-- C18: after any sequence of `Register` calls on a new registry, `Definitions` returns,
up to order, one declaration per distinct registered name, namely the `Definition()` of
the tool `Get` resolves for that name (a tool registered under it); its length is the
number of distinct registered names and the length of `List()`, which lists exactly those
names; and a name that was never registered has `Get` not found and is not listed. -/
theorem Registry_definitions_per_name {W : Type} (tools : List (Tool W)) :
    (registerAll tools).Definitions.Perm
      (((tools.map Tool.Name).dedup).filterMap
        (fun n => ((registerAll tools).Get n).map Tool.Definition)) ∧
    (registerAll tools).Definitions.length = ((tools.map Tool.Name).dedup).length ∧
    (registerAll tools).Definitions.length = (registerAll tools).List.length ∧
    (registerAll tools).List.Perm ((tools.map Tool.Name).dedup) ∧
    (∀ n ∈ tools.map Tool.Name, ∃ t ∈ tools, t.Name = n ∧
      (registerAll tools).Get n = some t) ∧
    (∀ n : String, n ∉ tools.map Tool.Name →
      (registerAll tools).Get n = none ∧ n ∉ (registerAll tools).List) := by
  have hkeys : ∀ x : String, x ∈ (registerAll tools).tools.map Prod.fst ↔
      x ∈ tools.map Tool.Name := by
    intro x
    have := foldl_Register_keys tools NewRegistry x
    simpa [registerAll, NewRegistry] using this
  have hnodup : ((registerAll tools).tools.map Prod.fst).Nodup :=
    foldl_Register_nodup tools NewRegistry (by simp [NewRegistry])
  have hperm : (registerAll tools).List.Perm ((tools.map Tool.Name).dedup) := by
    rw [List_eq_map]
    refine (List.perm_ext_iff_of_nodup hnodup (List.nodup_dedup _)).mpr ?_
    intro x
    rw [hkeys, List.mem_dedup]
  have hdefs : (registerAll tools).Definitions =
      (registerAll tools).List.filterMap
        (fun n => ((registerAll tools).Get n).map Tool.Definition) := by
    rw [Definitions_eq_map, List_eq_map]
    exact map_definition_eq_filterMap _ hnodup
  have hlen : (registerAll tools).Definitions.length = (registerAll tools).List.length := by
    rw [Definitions_eq_map, List_eq_map]
    simp
  refine ⟨?_, ?_, hlen, hperm, ?_, ?_⟩
  · rw [hdefs]
    exact hperm.filterMap _
  · rw [hlen]
    exact hperm.length_eq
  · intro n hn
    have hin : n ∈ (registerAll tools).tools.map Prod.fst := (hkeys n).mpr hn
    cases hg : (registerAll tools).Get n with
    | none =>
        exact absurd hin ((mapGet_eq_none_iff n _).mp hg)
    | some t =>
        rcases foldl_Register_get tools NewRegistry n t hg with ⟨hm, hname⟩ | h0
        · exact ⟨t, hm, hname, rfl⟩
        · simp [Registry.Get, NewRegistry, mapGet] at h0
  · intro n hn
    have hnot : n ∉ (registerAll tools).tools.map Prod.fst := fun h => hn ((hkeys n).mp h)
    exact ⟨(mapGet_eq_none_iff n _).mpr hnot, by rw [List_eq_map]; exact hnot⟩


/-! ## The tools on arguments that do not parse -/

theorem dispatch_execute_error {W : Type} (registry : Registry W) (s : LoopState W)
    (call : ToolCall) (tool : Tool W) (e : GoError) (w1 : W)
    (hget : registry.Get call.Name = some tool)
    (hx : tool.Execute s.world call.Arguments = (Except.error e, w1)) :
    (dispatch registry s call).msgs =
      s.msgs ++ [ChatMsg.tool ("tool execution failed: " ++ e.msg) call.ID] := by
  simp [dispatch, hget, hx, ToolMessage]

theorem dispatch_execute_ok {W : Type} (registry : Registry W) (s : LoopState W)
    (call : ToolCall) (tool : Tool W) (text : String) (w1 : W)
    (hget : registry.Get call.Name = some tool)
    (hx : tool.Execute s.world call.Arguments = (Except.ok text, w1)) :
    (dispatch registry s call).msgs = s.msgs ++ [ChatMsg.tool text call.ID] := by
  simp [dispatch, hget, hx, ToolMessage]

/-- C19 (as amended): when the raw arguments of a request do not parse (`json.Unmarshal`
returns an error), `Execute` of get_weather returns that error and `Execute` of calculate
returns the error "failed to parse arguments: " followed by its message, each without
result text and without touching the world, so that `Reply` records a "tool execution
failed: ..." Tool-role message for them; `Execute` of get_holidays returns no error: when
the calendar does not load it returns the text "failed to load holiday events", and when
the calendar loads it returns the text "failed to parse tool call arguments: " followed by
the message; `Reply` records that text unchanged as the Tool-role message. -/
theorem Execute_on_invalid_arguments {W E V : Type}
    (unmarshalW : String → Except GoError WeatherPayload)
    (GetWeather : W → String → Bool → Except GoError String × W)
    (unmarshalC : String → Except GoError String)
    (NewEvaluableExpression : String → Except GoError E)
    (Evaluate : E → Except GoError V) (Sprint : V → String)
    (Getenv : W → String → String)
    (LoadCalendar : W → String → Except GoError (List VEvent) × W)
    (unmarshalH : String → Except GoError HolidayPayload) (formatDate : Int → String)
    (registry : Registry W) (s : LoopState W) (call : ToolCall) (eW eC eH : GoError)
    (hW : unmarshalW call.Arguments = Except.error eW)
    (hC : unmarshalC call.Arguments = Except.error eC)
    (hH : unmarshalH call.Arguments = Except.error eH) :
    (WeatherTool unmarshalW GetWeather).Execute s.world call.Arguments =
      (Except.error eW, s.world) ∧
    (registry.Get call.Name = some (WeatherTool unmarshalW GetWeather) →
      (dispatch registry s call).msgs =
        s.msgs ++ [ChatMsg.tool ("tool execution failed: " ++ eW.msg) call.ID]) ∧
    (CalculatorTool unmarshalC NewEvaluableExpression Evaluate Sprint : Tool W).Execute
        s.world call.Arguments =
      (Except.error (errorsNew ("failed to parse arguments: " ++ eC.msg)), s.world) ∧
    (registry.Get call.Name =
        some (CalculatorTool unmarshalC NewEvaluableExpression Evaluate Sprint) →
      (dispatch registry s call).msgs =
        s.msgs ++ [ChatMsg.tool
          ("tool execution failed: " ++ ("failed to parse arguments: " ++ eC.msg)) call.ID]) ∧
    (∀ (e : GoError) (w1 : W),
      LoadCalendar s.world
          (if Getenv s.world "HOLIDAY_CALENDAR_LINK" ≠ "" then
            Getenv s.world "HOLIDAY_CALENDAR_LINK"
          else "https://www.officeholidays.com/ics/spain/catalonia") = (Except.error e, w1) →
      (HolidayTool Getenv LoadCalendar unmarshalH formatDate).Execute s.world call.Arguments =
        (Except.ok "failed to load holiday events", w1) ∧
      (registry.Get call.Name = some (HolidayTool Getenv LoadCalendar unmarshalH formatDate) →
        (dispatch registry s call).msgs =
          s.msgs ++ [ChatMsg.tool "failed to load holiday events" call.ID])) ∧
    (∀ (events : List VEvent) (w1 : W),
      LoadCalendar s.world
          (if Getenv s.world "HOLIDAY_CALENDAR_LINK" ≠ "" then
            Getenv s.world "HOLIDAY_CALENDAR_LINK"
          else "https://www.officeholidays.com/ics/spain/catalonia") = (Except.ok events, w1) →
      (HolidayTool Getenv LoadCalendar unmarshalH formatDate).Execute s.world call.Arguments =
        (Except.ok ("failed to parse tool call arguments: " ++ eH.msg), w1) ∧
      (registry.Get call.Name = some (HolidayTool Getenv LoadCalendar unmarshalH formatDate) →
        (dispatch registry s call).msgs =
          s.msgs ++ [ChatMsg.tool ("failed to parse tool call arguments: " ++ eH.msg)
            call.ID])) := by
  have hwx : (WeatherTool unmarshalW GetWeather).Execute s.world call.Arguments =
      (Except.error eW, s.world) := by
    simp [WeatherTool, hW]
  have hcx : (CalculatorTool unmarshalC NewEvaluableExpression Evaluate Sprint :
      Tool W).Execute s.world call.Arguments =
      (Except.error (errorsNew ("failed to parse arguments: " ++ eC.msg)), s.world) := by
    simp [CalculatorTool, hC, fmtErrorfWrap]
  refine ⟨hwx, ?_, hcx, ?_, ?_, ?_⟩
  · intro hget
    exact dispatch_execute_error registry s call _ eW s.world hget hwx
  · intro hget
    exact dispatch_execute_error registry s call _ _ s.world hget hcx
  · intro e w1 hload
    have hx : (HolidayTool Getenv LoadCalendar unmarshalH formatDate).Execute s.world
        call.Arguments = (Except.ok "failed to load holiday events", w1) := by
      simp only [HolidayTool, hload]
    exact ⟨hx, fun hget => dispatch_execute_ok registry s call _ _ w1 hget hx⟩
  · intro events w1 hload
    have hx : (HolidayTool Getenv LoadCalendar unmarshalH formatDate).Execute s.world
        call.Arguments =
        (Except.ok ("failed to parse tool call arguments: " ++ eH.msg), w1) := by
      simp only [HolidayTool, hload, hH]
    exact ⟨hx, fun hget => dispatch_execute_ok registry s call _ _ w1 hget hx⟩

theorem Execute_on_invalid_arguments_witness :
    stubUnmarshal (⟨"", false⟩ : WeatherPayload) "not json" =
      Except.error (errorsNew "invalid character 'o' in literal null (expecting 'u')") ∧
    stubWeatherTool.Execute 0 "not json" =
      (Except.error (errorsNew "invalid character 'o' in literal null (expecting 'u')"), 0) ∧
    (dispatch toolsRegistry startState ⟨"c9", "get_weather", "not json"⟩).msgs =
      [ChatMsg.user "hi",
       ChatMsg.tool
         "tool execution failed: invalid character 'o' in literal null (expecting 'u')"
         "c9"] ∧
    stubCalculatorTool.Execute 0 "not json" =
      (Except.error (errorsNew
        "failed to parse arguments: invalid character 'o' in literal null (expecting 'u')"),
        0) ∧
    stubHolidayTool.Execute 0 "not json" =
      (Except.ok
        "failed to parse tool call arguments: invalid character 'o' in literal null (expecting 'u')",
        1) ∧
    offlineHolidayTool.Execute 0 "not json" = (Except.ok "failed to load holiday events", 1) :=
  have h := Execute_on_invalid_arguments
    (stubUnmarshal ⟨"", false⟩) (fun (w : Nat) _location _forecast => (Except.ok "sunny", w + 1))
    (stubUnmarshal "") (fun source => (Except.ok source : Except GoError String))
    (fun expression => (Except.ok expression : Except GoError String)) (fun result => result)
    (fun (_ : Nat) _ => "")
    (fun (w : Nat) _link => (Except.ok [⟨Except.ok 1, "New Year"⟩], w + 1))
    (stubUnmarshal ⟨0, 0, 0⟩) (fun _ => "2025-01-01")
    toolsRegistry startState ⟨"c9", "get_weather", "not json"⟩
    (errorsNew "invalid character 'o' in literal null (expecting 'u')")
    (errorsNew "invalid character 'o' in literal null (expecting 'u')")
    (errorsNew "invalid character 'o' in literal null (expecting 'u')")
    rfl rfl rfl
  have hoff := Execute_on_invalid_arguments
    (stubUnmarshal ⟨"", false⟩) (fun (w : Nat) _location _forecast => (Except.ok "sunny", w + 1))
    (stubUnmarshal "") (fun source => (Except.ok source : Except GoError String))
    (fun expression => (Except.ok expression : Except GoError String)) (fun result => result)
    (fun (_ : Nat) _ => "")
    (fun (w : Nat) _link => (Except.error (errorsNew "failed to parse calendar: offline"), w + 1))
    (stubUnmarshal ⟨0, 0, 0⟩) (fun _ => "2025-01-01")
    toolsRegistry startState ⟨"c9", "get_holidays", "not json"⟩
    (errorsNew "invalid character 'o' in literal null (expecting 'u')")
    (errorsNew "invalid character 'o' in literal null (expecting 'u')")
    (errorsNew "invalid character 'o' in literal null (expecting 'u')")
    rfl rfl rfl
  ⟨rfl, h.1, h.2.1 rfl, h.2.2.1,
   (h.2.2.2.2.2 [⟨Except.ok 1, "New Year"⟩] 1 rfl).1,
   (hoff.2.2.2.2.1 (errorsNew "failed to parse calendar: offline") 1 rfl).1⟩

/-- C19 (counterexample): on the arguments "not json", which the JSON parser rejects, the
holiday tool (its calendar loaded) returns a result text and no error, and `Reply` records
that text as the Tool-role message, without "tool execution failed: ". -/
theorem HolidayTool_invalid_arguments_no_error :
    stubUnmarshal (⟨0, 0, 0⟩ : HolidayPayload) "not json" =
      Except.error (errorsNew "invalid character 'o' in literal null (expecting 'u')") ∧
    stubHolidayTool.Execute 0 "not json" =
      (Except.ok
        "failed to parse tool call arguments: invalid character 'o' in literal null (expecting 'u')",
        1) ∧
    (dispatch toolsRegistry startState ⟨"c9", "get_holidays", "not json"⟩).msgs =
      [ChatMsg.user "hi",
       ChatMsg.tool
         "failed to parse tool call arguments: invalid character 'o' in literal null (expecting 'u')"
         "c9"] ∧
    offlineHolidayTool.Execute 0 "not json" = (Except.ok "failed to load holiday events", 1) :=
  ⟨rfl, rfl, rfl, rfl⟩

end AcaiChat
